import Mathlib

/-!
Verification of the job-queue / pipeline-orchestrator / auto-retry core of
`jarvis-desktop` (`src/src-tauri/src/main.rs`), as a shallow embedding in Lean.

Modelling conventions:
* Rust machine integers (`u32`, `u64`, `u128`, `usize`) are modelled as `Nat`;
  saturating operations are written out explicitly where the source uses them.
* `f64` values (`retry_after_seconds` and the arithmetic inside
  `compute_next_retry_at_ms`) are modelled as exact rationals `ℚ`, with every
  cast and arithmetic result passed through `roundF64`, IEEE-754 binary64
  rounding (round to nearest, ties to even, 53-bit significand). The exponent
  range of `roundF64` is unbounded; all values this program ever rounds lie
  far inside the normal binary64 range, where the two agree. The
  `format!("{:.0}", x)` step is modelled as round-half-to-even.
* `serde_json::Value` is modelled by the inductive `Json` below, with numbers
  restricted to integers (the only numeric fields the verified claims touch,
  `schema_version` and counters, are integers in the source).
* Timestamps (`now_epoch_ms()` / `now_epoch_ms_string()`) are passed in as
  explicit parameters, making every operation a pure function of its inputs.
* File I/O is modelled by passing the parsed document (or `Option Json` for a
  possibly-absent file) explicitly; atomic writes succeed in the model.
-/

namespace Jarvis

/-- `enum JobStatus` (main.rs:198). -/
inductive JobStatus
  | queued
  | running
  | succeeded
  | failed
  | needsRetry
  | canceled
  deriving DecidableEq, Repr

/-- `serde_json::Value`, with numbers restricted to integers (see module notes). -/
inductive Json
  | null
  | jbool (b : Bool)
  | jnum (n : Int)
  | jstr (s : String)
  | jarr (elems : List Json)
  | jobj (fields : List (String × Json))
  deriving Repr

/-- `struct JobRecord` (main.rs:208). `retry_after_seconds : Option ℚ` models
`Option<f64>`; `retry_at` is the decimal string the source stores. -/
structure JobRecord where
  job_id : String
  template_id : String
  canonical_id : String
  params : Json
  status : JobStatus
  attempt : Nat
  created_at : String
  updated_at : String
  run_id : Option String
  last_error : Option String
  retry_after_seconds : Option ℚ
  retry_at : Option String
  auto_retry_attempt_count : Nat
  deriving Repr

/-- `struct DesktopSettings` (main.rs:288). -/
structure DesktopSettings where
  auto_retry_enabled : Bool
  auto_retry_max_per_job : Nat
  auto_retry_max_per_pipeline : Nat
  auto_retry_max_delay_seconds : Nat
  auto_retry_base_delay_seconds : Nat
  deriving DecidableEq, Repr

/-- `impl Default for DesktopSettings` (main.rs:296). -/
def DesktopSettings.default : DesktopSettings :=
  { auto_retry_enabled := false
    auto_retry_max_per_job := 2
    auto_retry_max_per_pipeline := 3
    auto_retry_max_delay_seconds := 3600
    auto_retry_base_delay_seconds := 30 }

/-- `f64::min`, written with an explicit `if` so that it evaluates by `decide`. -/
def qmin (a b : ℚ) : ℚ := if a ≤ b then a else b

/-- `f64::max`, written with an explicit `if` so that it evaluates by `decide`. -/
def qmax (a b : ℚ) : ℚ := if b ≤ a then a else b

/-- `u128::saturating_mul` on the `Nat` model. -/
def satMul128 (a b : Nat) : Nat :=
  min (a * b) (2 ^ 128 - 1)

/-- Rust's `format!("{:.0}", x)` rounding: round half to even, on `ℚ`. -/
def roundHalfEven (q : ℚ) : ℤ :=
  let f := ⌊q⌋
  let r := q - (f : ℚ)
  if r < 1/2 then f
  else if 1/2 < r then f + 1
  else if f % 2 = 0 then f else f + 1

/-- Fuel-driven floor of `log2`: `log2F fuel n = ⌊log2 n⌋` for `1 ≤ n < 2 ^ fuel`. -/
def log2F : Nat → Nat → Nat
  | 0, _ => 0
  | fuel + 1, n => if n ≤ 1 then 0 else log2F fuel (n / 2) + 1

/-- `⌊log2 n⌋` for `1 ≤ n < 2 ^ 256`; every numerator and denominator this
development ever rounds lies far below that. -/
def floorLog2 (n : Nat) : Nat := log2F 256 n

/-- The binary exponent `⌊log2 |q|⌋` of a nonzero rational, obtained from the
floor logs of its numerator and denominator: `|q|` lies in
`[2 ^ (L - M - 1), 2 ^ (L - M + 1))`, and the cross-multiplied comparison
picks the correct end. -/
def f64Exp (q : ℚ) : ℤ :=
  let n := q.num.natAbs
  let d := q.den
  let L := floorLog2 n
  let M := floorLog2 d
  if d * 2 ^ L ≤ n * 2 ^ M then (L : ℤ) - M else (L : ℤ) - M - 1

/-- IEEE-754 binary64 rounding (round to nearest, ties to even) of an exact
rational: scale `|q|` so its leading bit sits at significand position 52,
round half to even, and scale back. The exponent range is unbounded here;
every value this program feeds through `f64` lies far inside the normal
binary64 range (no subnormals, no overflow), where this agrees with IEEE. -/
def roundF64 (q : ℚ) : ℚ :=
  if q = 0 then 0
  else
    let s : ℤ := 52 - f64Exp q
    let r : ℚ := (roundHalfEven (|q| * (2 : ℚ) ^ s) : ℚ) * (2 : ℚ) ^ (-s)
    if q < 0 then -r else r

/-- The real-valued core of `compute_next_retry_at_ms` (main.rs:1899-1916):
everything up to (but not including) the final `format!("{:.0}", next)`.
Every `f64` cast and arithmetic result is rounded with `roundF64`; the
comparisons (`min`/`max`) are exact on their already-rounded operands, as in
IEEE-754. The hint parameter stands for the exact value of the incoming
`f64`. -/
def computeNextRetryAtQ (nowMs : Nat) (retryAfterSeconds : Option ℚ)
    (autoRetryAttemptCount : Nat) (settings : DesktopSettings) : ℚ :=
  let delaySeconds : ℚ :=
    match retryAfterSeconds with
    | some sec =>
      -- sec.max(0.0).min(max_delay as f64)
      qmin (qmax sec 0) (roundF64 (settings.auto_retry_max_delay_seconds : ℚ))
    | none =>
      -- exp = auto_retry_attempt_count.saturating_sub(1).min(31)
      let exp := min (autoRetryAttemptCount - 1) 31
      -- raw = base.saturating_mul(1u128 << exp); exp ≤ 31 so the shift is 2 ^ exp
      let raw := satMul128 settings.auto_retry_base_delay_seconds (2 ^ exp)
      let capped := min raw settings.auto_retry_max_delay_seconds
      -- capped as f64
      roundF64 (capped : ℚ)
  -- next = now_ms as f64 + delay_seconds * 1000.0
  let next := roundF64 (roundF64 (nowMs : ℚ) + roundF64 (delaySeconds * 1000))
  -- next.max(now_ms as f64)
  qmax next (roundF64 (nowMs : ℚ))

/-- `compute_next_retry_at_ms` (main.rs:1899-1916), result formatted as the
decimal string the source stores into `retry_at`. The clamp `next.max(now)`
keeps the value non-negative, so `Int.toNat` is lossless here. -/
def compute_next_retry_at_ms (nowMs : Nat) (retryAfterSeconds : Option ℚ)
    (autoRetryAttemptCount : Nat) (settings : DesktopSettings) : String :=
  (roundHalfEven (computeNextRetryAtQ nowMs retryAfterSeconds
      autoRetryAttemptCount settings)).toNat.repr

/-- Digit accumulation for the `u128` parse, most significant digit first. -/
def parseDigits : List Char → Nat → Option Nat
  | [], acc => some acc
  | c :: cs, acc =>
    if c.isDigit then parseDigits cs (acc * 10 + (c.toNat - 48)) else none

/-- `str::parse::<u128>` on the character list: an optional leading `+`, then
at least one digit, and the value must stay below `2 ^ 128`. -/
def parseU128Chars (cs : List Char) : Option Nat :=
  let ds := match cs with
    | '+' :: rest => rest
    | l => l
  if ds.isEmpty then none
  else match parseDigits ds 0 with
    | some n => if n < 2 ^ 128 then some n else none
    | none => none

/-- `str::trim` on the character list (whitespace here is the ASCII
space/tab/newline/return set). -/
def trimChars (cs : List Char) : List Char :=
  ((cs.dropWhile Char.isWhitespace).reverse.dropWhile Char.isWhitespace).reverse

/-- `parse_retry_at_ms` (main.rs:1918-1924): trim, reject empty, parse as
`u128`. -/
def parse_retry_at_ms (text : Option String) : Option Nat :=
  match text with
  | none => none
  | some s =>
    let raw := trimChars s.data
    if raw.isEmpty then none
    else parseU128Chars raw

/-- The backoff delay (in seconds) exactly as the specification words it:
the hint clamped to `[0, max_delay]` when present, otherwise
`base_delay * 2 ^ (attempt_index - 1)` clamped to `max_delay`. -/
def specBackoffDelaySeconds (hint : Option ℚ) (attemptIndex : Nat)
    (settings : DesktopSettings) : ℚ :=
  match hint with
  | some h => qmin (qmax h 0) (settings.auto_retry_max_delay_seconds : ℚ)
  | none =>
    ((min (settings.auto_retry_base_delay_seconds * 2 ^ (attemptIndex - 1))
        settings.auto_retry_max_delay_seconds : Nat) : ℚ)

/-- The spec formula amended with the exponent cap the source applies:
`base_delay * 2 ^ min(attempt_index - 1, 31)` clamped to `max_delay`. -/
def specBackoffDelaySecondsCapped (hint : Option ℚ) (attemptIndex : Nat)
    (settings : DesktopSettings) : ℚ :=
  match hint with
  | some h => qmin (qmax h 0) (settings.auto_retry_max_delay_seconds : ℚ)
  | none =>
    ((min (settings.auto_retry_base_delay_seconds * 2 ^ (min (attemptIndex - 1) 31))
        settings.auto_retry_max_delay_seconds : Nat) : ℚ)

/-- `u128` parse as `retry_job` performs it directly on the stored string:
`retry_at.parse::<u128>()` (no trimming there). -/
def parseU128 (s : String) : Option Nat :=
  parseU128Chars s.data

/-- `struct JobRuntimeState` (main.rs:226). The `HashSet<String>` of cancel
requests is modelled as a duplicate-free list with membership-checked insert. -/
structure JobRuntimeState where
  jobs : List JobRecord
  running_job_id : Option String
  running_pid : Option Nat
  cancel_requested : List String

/-- `JobRuntimeState::default()`: empty jobs, no running job, no cancel intents. -/
def JobRuntimeState.init : JobRuntimeState :=
  { jobs := [], running_job_id := none, running_pid := none, cancel_requested := [] }

/-- The job record `enqueue_job_internal` appends (main.rs:5013-5027). -/
def freshJobRecord (jobId templateId canonicalId : String) (params : Json)
    (nowStr : String) : JobRecord :=
  { job_id := jobId
    template_id := templateId
    canonical_id := canonicalId
    params := params
    status := JobStatus.queued
    attempt := 0
    created_at := nowStr
    updated_at := nowStr
    run_id := none
    last_error := none
    retry_after_seconds := none
    retry_at := none
    auto_retry_attempt_count := 0 }

/-- `enqueue_job_internal` (main.rs:5007-5030) after its template/identifier
validation (the template table and identifier normalizer are out-of-scope
collaborators); the generated `job_id` is passed in explicitly. -/
def enqueueJobCore (st : JobRuntimeState) (jobId templateId canonicalId : String)
    (params : Json) (nowStr : String) : JobRuntimeState :=
  { st with jobs := st.jobs ++ [freshJobRecord jobId templateId canonicalId params nowStr] }

/-- The worker's pick-up of the next queued job (main.rs:3211-3224): only when
no job is running, take the first `Queued` job, mark it `Running`, bump
`attempt`, and record it as the running job. -/
def workerPickNext (st : JobRuntimeState) (nowStr : String) :
    Option (JobRuntimeState × JobRecord) :=
  match st.running_job_id with
  | some _ => none
  | none =>
    match st.jobs.findIdx? (fun j => j.status == JobStatus.queued) with
    | none => none
    | some idx =>
      match st.jobs[idx]? with
      | none => none
      | some j =>
        let j2 := { j with
          status := JobStatus.running
          attempt := j.attempt + 1
          updated_at := nowStr }
        some ({ st with jobs := st.jobs.set idx j2, running_job_id := some j2.job_id }, j2)

/-- The adapter-side classification outcome consumed by `apply_job_result`:
`classify_job_status` (main.rs:2831-2872) reads `result.json` and the raw
`RunResult`; all of its non-canceled return paths produce one of these three
shapes, which the model takes as input. -/
inductive ClassifiedResult
  | succeeded
  | failed (msg : String)
  | needsRetry (retryAfter : Option ℚ) (msg : String)

/-- The cancellation-intent arbitration of `classify_job_status`
(main.rs:2837-2839 plus the shape of every other return): `Canceled` wins when
a cancel was requested for this job. -/
def classify_job_status (canceled : Bool) (result : ClassifiedResult) :
    JobStatus × Option ℚ × Option String :=
  if canceled then (JobStatus.canceled, none, none)
  else
    match result with
    | ClassifiedResult.succeeded => (JobStatus.succeeded, none, none)
    | ClassifiedResult.failed msg => (JobStatus.failed, none, some msg)
    | ClassifiedResult.needsRetry ra msg => (JobStatus.needsRetry, ra, some msg)

/-- `apply_job_result` (main.rs:2874-2946), restricted to its effect on the
job runtime state (the library-index upsert and the pipeline reconciliation it
triggers afterwards are modelled as separate transitions). `resultRunId` is
`run_result.run_id`; `inferredRunId` models `infer_newest_run_id_after`. -/
def apply_job_result (st : JobRuntimeState) (jobId : String) (result : ClassifiedResult)
    (resultRunId : String) (inferredRunId : Option String)
    (settings : DesktopSettings) (nowMs : Nat) (nowStr : String) :
    Except String JobRuntimeState :=
  match st.jobs.findIdx? (fun j => j.job_id == jobId) with
  | none => Except.error ("job not found: " ++ jobId)
  | some idx =>
    match st.jobs[idx]? with
    | none => Except.error "job index out of range"
    | some j =>
      let runId : Option String :=
        match j.run_id with
        | some r => some r
        | none => if resultRunId.trim ≠ "" then some resultRunId else inferredRunId
      let canceled := st.cancel_requested.contains jobId
      let cls := classify_job_status canceled result
      let status := cls.1
      let retryAfter := cls.2.1
      let err := cls.2.2
      let retryAt : Option String :=
        if status = JobStatus.needsRetry then
          some (compute_next_retry_at_ms nowMs retryAfter (j.auto_retry_attempt_count + 1)
            settings)
        else none
      let j2 := { j with
        status := status
        updated_at := nowStr
        run_id := runId
        retry_after_seconds := retryAfter
        retry_at := retryAt
        last_error := err }
      Except.ok { st with
        jobs := st.jobs.set idx j2
        running_job_id := none
        running_pid := none
        cancel_requested := st.cancel_requested.filter (fun s => s != jobId) }

/-- `cancel_job` (main.rs:5060-5096), restricted to the job runtime state: the
`taskkill` of the running process is best-effort and external. Note the
unconditional `updated_at` refresh at main.rs:5088, also on the terminal
no-op path. -/
def cancel_job (st : JobRuntimeState) (jobId : String) (nowStr : String) :
    Except String (JobRuntimeState × JobRecord) :=
  match st.jobs.findIdx? (fun j => j.job_id == jobId) with
  | none => Except.error ("job not found: " ++ jobId)
  | some idx =>
    match st.jobs[idx]? with
    | none => Except.error "job index out of range"
    | some j =>
      let withIntent :=
        match j.status with
        | JobStatus.queued => ({ j with status := JobStatus.canceled }, st.cancel_requested)
        | JobStatus.running =>
          ({ j with status := JobStatus.canceled },
            if st.cancel_requested.contains jobId then st.cancel_requested
            else st.cancel_requested ++ [jobId])
        | _ => (j, st.cancel_requested)
      let j2 := { withIntent.1 with updated_at := nowStr }
      Except.ok ({ st with jobs := st.jobs.set idx j2, cancel_requested := withIntent.2 }, j2)

/-- The retry-window guard of `retry_job` (main.rs:5118-5126): blocked when
`retry_at` is present, parses as `u128`, and lies in the future. -/
def retryWindowBlocked (j : JobRecord) (nowMs : Nat) : Bool :=
  match j.retry_at with
  | some s =>
    match parseU128 s with
    | some ts => decide (nowMs < ts)
    | none => false
  | none => false

/-- `retry_job` (main.rs:5099-5141), restricted to the job runtime state: the
status gate, the retry-window check (`retry_at.parse::<u128>()` on the raw
string), and the field resets; `auto_retry_attempt_count` is untouched. -/
def retry_job (st : JobRuntimeState) (jobId : String) (force : Bool)
    (nowMs : Nat) (nowStr : String) : Except String (JobRuntimeState × JobRecord) :=
  match st.jobs.findIdx? (fun j => j.job_id == jobId) with
  | none => Except.error ("job not found: " ++ jobId)
  | some idx =>
    match st.jobs[idx]? with
    | none => Except.error "job index out of range"
    | some j =>
      if ¬(j.status = JobStatus.failed ∨ j.status = JobStatus.needsRetry ∨ force = true) then
        Except.error "job is not retryable"
      else
        if force = false ∧ retryWindowBlocked j nowMs = true then
          Except.error "retry window has not started yet; pass force=true to override"
        else
          let j2 := { j with
            status := JobStatus.queued
            updated_at := nowStr
            last_error := none
            retry_after_seconds := none
            retry_at := none }
          Except.ok ({ st with jobs := st.jobs.set idx j2 }, j2)

/-- `clear_finished_jobs` (main.rs:5144-5159): drop `Succeeded`, `Failed` and
`Canceled` jobs, returning the kept state and the removed count. -/
def clear_finished_jobs (st : JobRuntimeState) : JobRuntimeState × Nat :=
  let kept := st.jobs.filter (fun j =>
    !(j.status == JobStatus.succeeded || j.status == JobStatus.failed ||
      j.status == JobStatus.canceled))
  ({ st with jobs := kept }, st.jobs.length - kept.length)

/-- The schedule-filling pass of `tick_auto_retry` (main.rs:5624-5632): any
`NeedsRetry` job missing `retry_at` gets one computed from the backoff formula;
no other field changes. -/
def tickFillRetryAt (jobs : List JobRecord) (settings : DesktopSettings)
    (nowMs : Nat) : List JobRecord :=
  jobs.map (fun j =>
    if j.status == JobStatus.needsRetry && j.retry_at.isNone then
      { j with retry_at := some (compute_next_retry_at_ms nowMs j.retry_after_seconds
          (j.auto_retry_attempt_count + 1) settings) }
    else j)

/-- The post-dispatch counter bump of `tick_auto_retry` (main.rs:5699-5701):
the first job with the given id gets `auto_retry_attempt_count`
incremented (saturating); nothing else changes. -/
def bumpAutoRetryCount (jobs : List JobRecord) (jobId : String) : List JobRecord :=
  match jobs.findIdx? (fun j => j.job_id == jobId) with
  | none => jobs
  | some idx =>
    match jobs[idx]? with
    | none => jobs
    | some j => jobs.set idx { j with auto_retry_attempt_count := j.auto_retry_attempt_count + 1 }

/-- The number of jobs whose status is `Running`. -/
def countRunning (jobs : List JobRecord) : Nat :=
  (jobs.filter (fun j => j.status == JobStatus.running)).length

/-- The list of job ids, in store order. -/
def jobIds (jobs : List JobRecord) : List String :=
  jobs.map JobRecord.job_id

/-- One observable transition of the job runtime. Pipeline operations touch the
job store only through `enqueue_job_internal`, `cancel_job` and `retry_job`
(main.rs:5241, 5465, 5681, 5689), so their job-side effects are instances of
the corresponding constructors, and `tick_auto_retry`'s job-side effects are
the `tickFill`/`tickBump` constructors plus a `retry` instance.
Two call-site facts appear as guards: `make_run_id`-based job ids are fresh
(`hfresh`), and `apply_job_result` is invoked only by the worker for the job it
picked (main.rs:3245, 3258), which at that point is still the recorded
`running_job_id` since only `apply_job_result` itself clears it (`hmark`). -/
inductive JStep : JobRuntimeState → JobRuntimeState → Prop
  | enqueue (st : JobRuntimeState) (jobId templateId canonicalId : String)
      (params : Json) (nowStr : String)
      (hfresh : jobId ∉ jobIds st.jobs) :
      JStep st (enqueueJobCore st jobId templateId canonicalId params nowStr)
  | pick (st st' : JobRuntimeState) (nowStr : String) (job : JobRecord)
      (h : workerPickNext st nowStr = some (st', job)) :
      JStep st st'
  | applyResult (st st' : JobRuntimeState) (jobId : String) (result : ClassifiedResult)
      (resultRunId : String) (inferredRunId : Option String)
      (settings : DesktopSettings) (nowMs : Nat) (nowStr : String)
      (hmark : st.running_job_id = some jobId)
      (h : apply_job_result st jobId result resultRunId inferredRunId settings nowMs nowStr =
        Except.ok st') :
      JStep st st'
  | cancel (st st' : JobRuntimeState) (jobId nowStr : String) (updated : JobRecord)
      (h : cancel_job st jobId nowStr = Except.ok (st', updated)) :
      JStep st st'
  | retry (st st' : JobRuntimeState) (jobId : String) (force : Bool)
      (nowMs : Nat) (nowStr : String) (updated : JobRecord)
      (h : retry_job st jobId force nowMs nowStr = Except.ok (st', updated)) :
      JStep st st'
  | clearFinished (st : JobRuntimeState) :
      JStep st (clear_finished_jobs st).1
  | tickFill (st : JobRuntimeState) (settings : DesktopSettings) (nowMs : Nat) :
      JStep st { st with jobs := tickFillRetryAt st.jobs settings nowMs }
  | tickBump (st : JobRuntimeState) (jobId : String) :
      JStep st { st with jobs := bumpAutoRetryCount st.jobs jobId }

/-- `serde_json::Value::get` on an object key (objects carry unique keys;
the first binding wins in the model). -/
def Json.get (v : Json) (key : String) : Option Json :=
  match v with
  | Json.jobj fields => (fields.find? (fun kv => kv.1 == key)).map (fun kv => kv.2)
  | _ => none

/-- `serde_json::Number::as_u64`: only non-negative integers in `u64` range. -/
def Json.as_u64 (v : Json) : Option Nat :=
  match v with
  | Json.jnum n => if 0 ≤ n ∧ n < 2 ^ 64 then some n.toNat else none
  | _ => none

/-- `serde_json::Value::is_object`. -/
def Json.isObj (v : Json) : Bool :=
  match v with
  | Json.jobj _ => true
  | _ => false

/-- `serde_json::Map::insert`: replace the binding if the key exists,
otherwise append it. -/
def Json.insertKey (v : Json) (key : String) (val : Json) : Json :=
  match v with
  | Json.jobj fields =>
    Json.jobj (if fields.any (fun kv => kv.1 == key) then
        fields.map (fun kv => if kv.1 == key then (key, val) else kv)
      else fields ++ [(key, val)])
  | _ => v

/-- `const SCHEMA_VERSION: u32 = 1` (main.rs:15). -/
def SCHEMA_VERSION : Nat := 1

/-- `subsystem_display_name` (main.rs:1711-1718). -/
def subsystem_display_name (subsystem : String) : String :=
  if subsystem = "jobs" then "jobs.json"
  else if subsystem = "pipelines" then "pipelines.json"
  else if subsystem = "settings" then "settings.json"
  else subsystem

/-- `parse_schema_version` (main.rs:1720-1729): an absent (or non-`u64`)
`schema_version` field is treated as version 1; a `u64` value beyond `u32`
range is rejected. -/
def parse_schema_version (value : Json) : Except String Nat :=
  match (value.get "schema_version").bind Json.as_u64 with
  | some n =>
    if n < 2 ^ 32 then Except.ok n
    else Except.error "schema_version is out of supported range"
  | none => Except.ok 1

/-- `migrate_schema_value` (main.rs:1731-1743): only the pass-through
`(1, 2)` migration exists. -/
def migrate_schema_value (_subsystem : String) (fromVersion toVersion : Nat)
    (value : Json) : Except String Json :=
  if fromVersion = 1 ∧ toVersion = 2 then Except.ok value
  else
    Except.error
      ("no migration path from schema_version=" ++ toString fromVersion ++
        " to " ++ toString toVersion)

/-- The `while version < SCHEMA_VERSION` loop of `load_with_migration`
(main.rs:1771-1775), with the loop count `SCHEMA_VERSION - version` passed as
structural fuel (each iteration increments `version`, so this is exact). -/
def migrateUp (subsystem : String) (version : Nat) (value : Json) :
    Nat → Except String Json
  | 0 => Except.ok value
  | fuel + 1 =>
    if version < SCHEMA_VERSION then
      match migrate_schema_value subsystem version (version + 1) value with
      | Except.error e => Except.error e
      | Except.ok v2 => migrateUp subsystem (version + 1) v2 fuel
    else Except.ok value

/-- `load_with_migration` (main.rs:1745-1784) on an already-read-and-parsed
document (file read and JSON parse errors are upstream I/O, outside the model):
reject non-objects, reject future schema versions read-only, migrate older
versions one step at a time, stamp the current version, and decode. -/
def load_with_migration {α : Type} (value : Json) (subsystem : String)
    (decode : Json → Except String α) : Except String α :=
  if value.isObj = false then
    Except.error ("invalid " ++ subsystem_display_name subsystem ++ ": root must be an object")
  else
    match parse_schema_version value with
    | Except.error e => Except.error e
    | Except.ok version =>
      if SCHEMA_VERSION < version then
        Except.error
          (subsystem_display_name subsystem ++ " has unsupported schema_version=" ++
            toString version ++ " (supported=" ++ toString SCHEMA_VERSION ++
            "); subsystem is read-only")
      else
        match migrateUp subsystem version value (SCHEMA_VERSION - version) with
        | Except.error e => Except.error e
        | Except.ok v2 =>
          decode (v2.insertKey "schema_version" (Json.jnum (SCHEMA_VERSION : Int)))

/-- `ensure_schema_writable` (main.rs:1786-1804) on the current file contents
(`none` = the file does not exist). -/
def ensure_schema_writable (file : Option Json) (subsystem : String) :
    Except String Unit :=
  match file with
  | none => Except.ok ()
  | some value =>
    match parse_schema_version value with
    | Except.error e => Except.error e
    | Except.ok version =>
      if SCHEMA_VERSION < version then
        Except.error
          (subsystem_display_name subsystem ++ " has unsupported schema_version=" ++
            toString version ++ " (supported=" ++ toString SCHEMA_VERSION ++
            "); refusing to modify")
      else Except.ok ()

/-- The shared shape of `save_jobs_to_file` / `save_pipelines_to_file` /
`save_settings` (main.rs:1817-1826, 1839-1848, 1868-1878): check
`ensure_schema_writable`, then atomically write the serialized payload. -/
def save_doc (file : Option Json) (subsystem : String) (payload : Json) :
    Except String Json :=
  match ensure_schema_writable file subsystem with
  | Except.error e => Except.error e
  | Except.ok _ => Except.ok payload

/-- The file contents after a save attempt: unchanged when the save errors
(the atomic write is never reached). -/
def fileAfterSave (file : Option Json) (subsystem : String) (payload : Json) :
    Option Json :=
  match save_doc file subsystem payload with
  | Except.ok newContents => some newContents
  | Except.error _ => file

/-- Serde serialization of `DesktopSettings`, fields in declaration order
(main.rs:288-294). -/
def settingsToJson (s : DesktopSettings) : Json :=
  Json.jobj
    [("auto_retry_enabled", Json.jbool s.auto_retry_enabled),
     ("auto_retry_max_per_job", Json.jnum (s.auto_retry_max_per_job : Int)),
     ("auto_retry_max_per_pipeline", Json.jnum (s.auto_retry_max_per_pipeline : Int)),
     ("auto_retry_max_delay_seconds", Json.jnum (s.auto_retry_max_delay_seconds : Int)),
     ("auto_retry_base_delay_seconds", Json.jnum (s.auto_retry_base_delay_seconds : Int))]

/-- `save_settings` (main.rs:1868-1878): writability check, then write the
`SettingsFilePayload { schema_version, settings }` document. -/
def save_settings (file : Option Json) (settings : DesktopSettings) :
    Except String Json :=
  save_doc file "settings"
    (Json.jobj [("schema_version", Json.jnum (SCHEMA_VERSION : Int)),
      ("settings", settingsToJson settings)])

/-- `update_settings` (main.rs:5546-5563): reject a zero in any of the four
auto-retry knobs, otherwise persist via `save_settings` and echo the settings
back. `file` is the current settings document on disk. -/
def update_settings (settings : DesktopSettings) (file : Option Json) :
    Except String (DesktopSettings × Json) :=
  if settings.auto_retry_max_per_job = 0 then
    Except.error "auto_retry_max_per_job must be >= 1"
  else if settings.auto_retry_max_per_pipeline = 0 then
    Except.error "auto_retry_max_per_pipeline must be >= 1"
  else if settings.auto_retry_base_delay_seconds = 0 then
    Except.error "auto_retry_base_delay_seconds must be >= 1"
  else if settings.auto_retry_max_delay_seconds = 0 then
    Except.error "auto_retry_max_delay_seconds must be >= 1"
  else
    match save_settings file settings with
    | Except.error e => Except.error e
    | Except.ok contents => Except.ok (settings, contents)

/-- The settings file contents after an `update_settings` attempt: unchanged
when the call errors. -/
def settingsFileAfterUpdate (settings : DesktopSettings) (file : Option Json) :
    Option Json :=
  match update_settings settings file with
  | Except.ok res => some res.2
  | Except.error _ => file

/-- A concrete already-terminal (`Succeeded`) job for exercising
`cancel_job`'s terminal path. -/
def terminalJob : JobRecord :=
  { job_id := "job_a"
    template_id := "tpl"
    canonical_id := "P1"
    params := Json.null
    status := JobStatus.succeeded
    attempt := 1
    created_at := "1"
    updated_at := "1"
    run_id := none
    last_error := none
    retry_after_seconds := none
    retry_at := none
    auto_retry_attempt_count := 0 }

/-- A store holding only `terminalJob`, with no running job. -/
def terminalCancelState : JobRuntimeState :=
  { jobs := [terminalJob], running_job_id := none, running_pid := none, cancel_requested := [] }

/-- A concrete `Failed` job for exercising `retry_job`. -/
def failedJob : JobRecord :=
  { terminalJob with job_id := "job_b", status := JobStatus.failed, last_error := some "boom" }

/-- A store holding only `failedJob`, with no running job. -/
def failedRetryState : JobRuntimeState :=
  { jobs := [failedJob], running_job_id := none, running_pid := none, cancel_requested := [] }

/-- `enum PipelineStepStatus` (main.rs:241). -/
inductive PipelineStepStatus
  | pending
  | running
  | succeeded
  | failed
  | needsRetry
  | canceled
  deriving DecidableEq, Repr

/-- `enum PipelineStatus` (main.rs:252). -/
inductive PipelineStatus
  | running
  | succeeded
  | failed
  | needsRetry
  | canceled
  deriving DecidableEq, Repr

/-- `struct PrimaryVizRef` (main.rs:119). -/
structure PrimaryVizRef where
  name : String
  kind : String
  deriving DecidableEq, Repr

/-- `struct PipelineStep` (main.rs:261). -/
structure PipelineStep where
  step_id : String
  template_id : String
  params : Json
  job_id : Option String
  status : PipelineStepStatus
  run_id : Option String
  started_at : Option String
  finished_at : Option String
  deriving Repr

/-- `struct PipelineRecord` (main.rs:273). -/
structure PipelineRecord where
  pipeline_id : String
  canonical_id : String
  name : String
  created_at : String
  updated_at : String
  steps : List PipelineStep
  current_step_index : Nat
  status : PipelineStatus
  last_primary_viz : Option PrimaryVizRef
  auto_retry_attempt_count : Nat
  deriving Repr

/-- `pipeline_step_status_from_job` (main.rs:1926-1934). -/
def pipeline_step_status_from_job (job : JobRecord) : PipelineStepStatus :=
  match job.status with
  | JobStatus.queued => PipelineStepStatus.running
  | JobStatus.running => PipelineStepStatus.running
  | JobStatus.succeeded => PipelineStepStatus.succeeded
  | JobStatus.failed => PipelineStepStatus.failed
  | JobStatus.needsRetry => PipelineStepStatus.needsRetry
  | JobStatus.canceled => PipelineStepStatus.canceled

/-- `is_pipeline_step_terminal` (main.rs:1954-1962). -/
def is_pipeline_step_terminal (status : PipelineStepStatus) : Bool :=
  match status with
  | PipelineStepStatus.succeeded => true
  | PipelineStepStatus.failed => true
  | PipelineStepStatus.needsRetry => true
  | PipelineStepStatus.canceled => true
  | _ => false

/-- The terminal-step to pipeline-status mapping of the reconciliation loop
(main.rs:5230-5234): `NeedsRetry` → `NeedsRetry`, `Canceled` → `Canceled`,
anything else → `Failed`. -/
def stepTerminalToPipeline (status : PipelineStepStatus) : PipelineStatus :=
  match status with
  | PipelineStepStatus.needsRetry => PipelineStatus.needsRetry
  | PipelineStepStatus.canceled => PipelineStatus.canceled
  | _ => PipelineStatus.failed

/-- The error type of the reconciliation model. `fuel` is a model artifact:
the loop is written with structural fuel `2 * steps.length + 2`, which
`reconLoop_no_fuel_error` proves is never exhausted. `msg` carries the
source's error strings (the enqueue-validation message is abstracted, since
the template table is an out-of-scope collaborator). -/
inductive RecErr
  | fuel
  | msg (s : String)

/-- The environment of a reconciliation pass: the current timestamp, the
`parse_run_primary_viz` oracle (a filesystem read, main.rs:1964-1969), the
enqueue validation verdict of `enqueue_job_internal` for a
`(template_id, canonical_id, params)` triple, and the stream of generated job
ids (`job_{now}_{make_run_id()}`, modelled as an injective stream consumed at
a counter). -/
structure ReconEnv where
  nowStr : String
  parseViz : String → Option PrimaryVizRef
  enqueueOk : String → String → Json → Bool
  ids : Nat → String

/-- The short-circuit test of the reconciliation loop (main.rs:5269-5273):
with a triggering job id given, a step bound to a different job is skipped. -/
def onlyIdMismatch (onlyJobId : Option String) (stepJobId : String) : Bool :=
  match onlyJobId with
  | some target => target != stepJobId
  | none => false

/-- The `loop` of `reconcile_pipelines_with_jobs` for one pipeline
(main.rs:5200-5304), with structural fuel. Each iteration either returns
(`break` in the source) or recurses with the loop measure decreased: the index
advances past a `Succeeded` step, or the current step leaves the `Running`
status. `acc`/`ctr` accumulate the jobs enqueued for `Pending` steps and the
id-stream position. -/
def reconLoop (env : ReconEnv) (snapshot : List JobRecord) (onlyJobId : Option String) :
    Nat → PipelineRecord → List JobRecord → Nat →
    Except RecErr (PipelineRecord × List JobRecord × Nat)
  | 0, _, _, _ => Except.error RecErr.fuel
  | fuel + 1, p, acc, ctr =>
    if p.steps.length ≤ p.current_step_index then
      Except.ok ({ p with
        status := PipelineStatus.succeeded
        updated_at := env.nowStr }, acc, ctr)
    else
      match p.steps[p.current_step_index]? with
      | none => Except.error (RecErr.msg "step index out of range")
      | some step =>
        if is_pipeline_step_terminal step.status then
          if step.status = PipelineStepStatus.succeeded then
            if p.steps.length ≤ p.current_step_index + 1 then
              Except.ok ({ p with
                status := PipelineStatus.succeeded
                updated_at := env.nowStr }, acc, ctr)
            else
              reconLoop env snapshot onlyJobId fuel
                { p with current_step_index := p.current_step_index + 1 } acc ctr
          else
            Except.ok ({ p with
              status := stepTerminalToPipeline step.status
              updated_at := env.nowStr }, acc, ctr)
        else if step.status = PipelineStepStatus.pending then
          if env.enqueueOk step.template_id p.canonical_id step.params then
            let jobId := env.ids ctr
            let newJob := freshJobRecord jobId step.template_id p.canonical_id step.params
              env.nowStr
            let step2 := { step with
              job_id := some jobId
              status := PipelineStepStatus.running
              started_at := if step.started_at.isNone then some env.nowStr else step.started_at
              finished_at := none }
            Except.ok ({ p with
              steps := p.steps.set p.current_step_index step2
              status := PipelineStatus.running
              updated_at := env.nowStr }, acc ++ [newJob], ctr + 1)
          else Except.error (RecErr.msg "enqueue failed")
        else
          match step.job_id with
          | none =>
            reconLoop env snapshot onlyJobId fuel
              { p with
                steps := p.steps.set p.current_step_index
                  { step with status := PipelineStepStatus.pending }
                updated_at := env.nowStr } acc ctr
          | some stepJobId =>
            if onlyIdMismatch onlyJobId stepJobId = true then
              Except.ok (p, acc, ctr)
            else
              match snapshot.find? (fun j => j.job_id == stepJobId) with
              | none => Except.ok (p, acc, ctr)
              | some job =>
                let mapped := pipeline_step_status_from_job job
                if mapped = PipelineStepStatus.running then
                  Except.ok (p, acc, ctr)
                else
                  let step2 := { step with
                    status := mapped
                    started_at := if step.started_at.isNone then some env.nowStr
                      else step.started_at
                    finished_at := some env.nowStr
                    run_id := if step.run_id.isNone then job.run_id else step.run_id }
                  reconLoop env snapshot onlyJobId fuel
                    { p with
                      steps := p.steps.set p.current_step_index step2
                      last_primary_viz :=
                        match step2.run_id with
                        | some rid =>
                          match env.parseViz rid with
                          | some pv => some pv
                          | none => p.last_primary_viz
                        | none => p.last_primary_viz
                      updated_at := env.nowStr } acc ctr

/-- The per-pipeline body of `reconcile_pipelines_with_jobs`
(main.rs:5182-5304): empty pipelines become `Succeeded`, non-`Running`
pipelines are skipped, an out-of-range `current_step_index` is clamped to the
last step, then the loop runs. -/
def reconcileOnePipeline (env : ReconEnv) (snapshot : List JobRecord)
    (onlyJobId : Option String) (p : PipelineRecord) (acc : List JobRecord) (ctr : Nat) :
    Except RecErr (PipelineRecord × List JobRecord × Nat) :=
  if p.steps.isEmpty then
    if p.status ≠ PipelineStatus.succeeded then
      Except.ok ({ p with
        status := PipelineStatus.succeeded
        updated_at := env.nowStr }, acc, ctr)
    else Except.ok (p, acc, ctr)
  else if p.status ≠ PipelineStatus.running then
    Except.ok (p, acc, ctr)
  else
    let p1 := if p.steps.length ≤ p.current_step_index then
        { p with current_step_index := p.steps.length - 1 }
      else p
    reconLoop env snapshot onlyJobId (2 * p1.steps.length + 2) p1 acc ctr

/-- `reconcile_pipelines_with_jobs` (main.rs:5161-5311) over all pipelines:
the jobs snapshot is read once before the loop and shared by every pipeline;
enqueued jobs are accumulated (the source pushes them into the store as it
goes, but looks jobs up only in the snapshot). -/
def reconcileAll (env : ReconEnv) (snapshot : List JobRecord) (onlyJobId : Option String) :
    List PipelineRecord → Nat → Except RecErr (List PipelineRecord × List JobRecord × Nat)
  | [], ctr => Except.ok ([], [], ctr)
  | p :: rest, ctr =>
    match reconcileOnePipeline env snapshot onlyJobId p [] ctr with
    | Except.error e => Except.error e
    | Except.ok (p1, new1, ctr1) =>
      match reconcileAll env snapshot onlyJobId rest ctr1 with
      | Except.error e => Except.error e
      | Except.ok (rest1, new2, ctr2) => Except.ok (p1 :: rest1, new1 ++ new2, ctr2)

/-- What a reconciliation pass may do to a pipeline's position: the current
step index never moves backwards past its starting point (except for the
defensive clamp, covered by the third clause), steps strictly before the
starting index are untouched, and every index the pass moved past holds a
`Succeeded` step. -/
def ReconAdvanceSpec (p p' : PipelineRecord) : Prop :=
  p.current_step_index ≤ p'.current_step_index ∧
  p'.steps.length = p.steps.length ∧
  (p'.current_step_index < p.steps.length ∨
    p'.current_step_index = p.current_step_index) ∧
  (∀ k, k < p.current_step_index → p'.steps[k]? = p.steps[k]?) ∧
  (∀ k, p.current_step_index ≤ k → k < p'.current_step_index →
    ∃ st, p'.steps[k]? = some st ∧ st.status = PipelineStepStatus.succeeded) ∧
  (∀ k, p'.current_step_index < k → p'.steps[k]? = p.steps[k]?)

/-- The pipeline record `create_pipeline` builds (main.rs:5334-5372) after its
per-step template validation (out-of-scope template table); each input triple
is `(step_id, template_id, params)` with the step id produced by
`sanitize_step_id`. All steps start `Pending`, `current_step_index` is 0 and
the status is `Running`. -/
def create_pipeline_record (pipelineId canonicalId name nowStr : String)
    (stepsIn : List (String × String × Json)) : PipelineRecord :=
  { pipeline_id := pipelineId
    canonical_id := canonicalId
    name := if name.trim = "" then "Analyze Paper" else name.trim
    created_at := nowStr
    updated_at := nowStr
    steps := stepsIn.map (fun s =>
      { step_id := s.1
        template_id := s.2.1
        params := s.2.2
        job_id := none
        status := PipelineStepStatus.pending
        run_id := none
        started_at := none
        finished_at := none })
    current_step_index := 0
    status := PipelineStatus.running
    last_primary_viz := none
    auto_retry_attempt_count := 0 }

/-- `cancel_pipeline` (main.rs:5450-5474), restricted to the pipelines
document: cancel the current step when it is in range and not yet terminal
(the best-effort `cancel_job` on its bound job acts on the jobs store), then
mark the pipeline `Canceled`. The trailing reconciliation is a separate
transition. -/
def cancel_pipeline_core (pipelines : List PipelineRecord) (pipelineId nowStr : String) :
    Except String (List PipelineRecord) :=
  match pipelines.findIdx? (fun p => p.pipeline_id == pipelineId) with
  | none => Except.error ("pipeline not found: " ++ pipelineId)
  | some idx =>
    match pipelines[idx]? with
    | none => Except.error "pipeline index out of range"
    | some p =>
      let p1 :=
        match p.steps[p.current_step_index]? with
        | none => p
        | some step =>
          if is_pipeline_step_terminal step.status then p
          else { p with
            steps := p.steps.set p.current_step_index { step with
              status := PipelineStepStatus.canceled
              finished_at := some nowStr } }
      Except.ok (pipelines.set idx { p1 with
        status := PipelineStatus.canceled
        updated_at := nowStr })

/-- The reset applied by `retry_pipeline_step` to the target step and every
later step (main.rs:5513-5525). -/
def resetPipelineStep (s : PipelineStep) : PipelineStep :=
  { s with
    job_id := none
    status := PipelineStepStatus.pending
    run_id := none
    started_at := none
    finished_at := none }

/-- `retry_pipeline_step` (main.rs:5483-5529), restricted to the pipelines
document: gate on the target step being `Failed`/`NeedsRetry`/`Canceled`
unless forced, reset the target and all later steps to `Pending`, rewind
`current_step_index` to the target, and set the pipeline `Running`. The
trailing reconciliation is a separate transition. -/
def retry_pipeline_step_core (pipelines : List PipelineRecord)
    (pipelineId stepId : String) (force : Bool) (nowStr : String) :
    Except String (List PipelineRecord) :=
  match pipelines.findIdx? (fun p => p.pipeline_id == pipelineId) with
  | none => Except.error ("pipeline not found: " ++ pipelineId)
  | some pidx =>
    match pipelines[pidx]? with
    | none => Except.error "pipeline index out of range"
    | some p =>
      match p.steps.findIdx? (fun s => s.step_id == stepId) with
      | none => Except.error ("step not found: " ++ stepId)
      | some sidx =>
        match p.steps[sidx]? with
        | none => Except.error "step index out of range"
        | some step =>
          if ¬(step.status = PipelineStepStatus.failed ∨
              step.status = PipelineStepStatus.needsRetry ∨
              step.status = PipelineStepStatus.canceled ∨ force = true) then
            Except.error "step is not retryable"
          else
            Except.ok (pipelines.set pidx { p with
              steps := p.steps.mapIdx (fun i s =>
                if sidx ≤ i then resetPipelineStep s else s)
              current_step_index := sidx
              status := PipelineStatus.running
              updated_at := nowStr })

/-- `start_pipeline` (main.rs:5429-5440), restricted to the pipelines
document: unconditionally set the pipeline `Running`. -/
def start_pipeline_core (pipelines : List PipelineRecord) (pipelineId nowStr : String) :
    Except String (List PipelineRecord) :=
  match pipelines.findIdx? (fun p => p.pipeline_id == pipelineId) with
  | none => Except.error ("pipeline not found: " ++ pipelineId)
  | some idx =>
    match pipelines[idx]? with
    | none => Except.error "pipeline index out of range"
    | some p =>
      Except.ok (pipelines.set idx { p with
        status := PipelineStatus.running
        updated_at := nowStr })

/-- The pipeline-counter bump after an auto-retry dispatch
(main.rs:5683-5687). -/
def bump_pipeline_retry_count (pipelines : List PipelineRecord) (pidx : Nat)
    (nowStr : String) : List PipelineRecord :=
  match pipelines[pidx]? with
  | none => pipelines
  | some p =>
    pipelines.set pidx { p with
      auto_retry_attempt_count := p.auto_retry_attempt_count + 1
      updated_at := nowStr }

/-- The step-prefix invariant of one pipeline: the current index is in range,
every step before it is `Succeeded`, and every step after it is `Pending`. -/
def PipelineInvP (p : PipelineRecord) : Prop :=
  p.current_step_index < p.steps.length ∧
  (∀ k, k < p.current_step_index →
    (p.steps[k]?).map PipelineStep.status = some PipelineStepStatus.succeeded) ∧
  (∀ k, k < p.steps.length → p.current_step_index < k →
    (p.steps[k]?).map PipelineStep.status = some PipelineStepStatus.pending)

/-- One observable transition of the pipelines document. The jobs snapshot a
reconciliation reads, the environment, and all timestamps are arbitrary, so
this relation over-approximates every interleaving with the job store.
A forced `retry_pipeline_step` is restricted to `force = false` here; the
counterexample theorem shows the unrestricted operation breaks the prefix
invariant. -/
inductive PStep : List PipelineRecord → List PipelineRecord → Prop
  | create (ps : List PipelineRecord) (pipelineId canonicalId name nowStr : String)
      (stepsIn : List (String × String × Json)) (hne : stepsIn ≠ []) :
      PStep ps (ps ++ [create_pipeline_record pipelineId canonicalId name nowStr stepsIn])
  | reconcile (ps ps' : List PipelineRecord) (env : ReconEnv)
      (snapshot : List JobRecord) (onlyJobId : Option String) (ctr : Nat)
      (new' : List JobRecord) (ctr' : Nat)
      (h : reconcileAll env snapshot onlyJobId ps ctr = Except.ok (ps', new', ctr')) :
      PStep ps ps'
  | cancelPipeline (ps ps' : List PipelineRecord) (pipelineId nowStr : String)
      (h : cancel_pipeline_core ps pipelineId nowStr = Except.ok ps') :
      PStep ps ps'
  | retryStep (ps ps' : List PipelineRecord) (pipelineId stepId nowStr : String)
      (h : retry_pipeline_step_core ps pipelineId stepId false nowStr = Except.ok ps') :
      PStep ps ps'
  | startPipeline (ps ps' : List PipelineRecord) (pipelineId nowStr : String)
      (h : start_pipeline_core ps pipelineId nowStr = Except.ok ps') :
      PStep ps ps'
  | tickBumpPipeline (ps : List PipelineRecord) (pidx : Nat) (nowStr : String) :
      PStep ps (bump_pipeline_retry_count ps pidx nowStr)

/-- The state in which a reconciliation pass leaves a pipeline, as needed for
idempotence: either no longer `Running`, or parked on a `Running` step bound
to a job id that a second pass will not act on — the id mismatches the
triggering job, or is a dangling binding carried over from the input pipeline
`qIn` and absent from the snapshot, or maps to a still-`Queued`/`Running`
snapshot job, or belongs to a job freshly enqueued into `pool` by this pass. -/
def SettledSummary (env : ReconEnv) (snap : List JobRecord) (onlyId : Option String)
    (qIn p1 : PipelineRecord) (pool : List JobRecord) : Prop :=
  p1.status ≠ PipelineStatus.running ∨
  ∃ step jid, p1.steps[p1.current_step_index]? = some step ∧
    step.status = PipelineStepStatus.running ∧ step.job_id = some jid ∧
    (onlyIdMismatch onlyId jid = true ∨
      ((∃ st0 ∈ qIn.steps, st0.job_id = some jid) ∧
        snap.find? (fun j => j.job_id == jid) = none) ∨
      (∃ job, snap.find? (fun j => j.job_id == jid) = some job ∧
        pipeline_step_status_from_job job = PipelineStepStatus.running) ∨
      ((∃ n, jid = env.ids n) ∧ ∃ jb ∈ pool, jb.job_id = jid))

/-- A concrete one-step pipeline as `create_pipeline` builds it. -/
def idemPipeline0 : PipelineRecord :=
  create_pipeline_record "pipe_3" "P1" "n" "1" [("step_01_tpl", "tpl", Json.null)]

/-- The step of `idemPipeline0` after the first reconciliation enqueued a job
for it. -/
def idemStep1 : PipelineStep :=
  { step_id := "step_01_tpl"
    template_id := "tpl"
    params := Json.null
    job_id := some "gen_0"
    status := PipelineStepStatus.running
    run_id := none
    started_at := some "9"
    finished_at := none }

/-- The job the first reconciliation of `idemPipeline0` enqueues. -/
def idemJob : JobRecord :=
  freshJobRecord "gen_0" "tpl" "P1" Json.null "9"

/-- `idemPipeline0` after the first reconciliation pass. -/
def idemPipeline1 : PipelineRecord :=
  { idemPipeline0 with
    steps := [idemStep1]
    status := PipelineStatus.running
    updated_at := "9" }

/-- A concrete failed pipeline step bound to `job_b`. -/
def failedStep : PipelineStep :=
  { step_id := "step_01_tpl"
    template_id := "tpl"
    params := Json.null
    job_id := some "job_b"
    status := PipelineStepStatus.failed
    run_id := none
    started_at := some "1"
    finished_at := some "2" }

/-- A concrete `Running` pipeline whose current (single) step has failed. -/
def failedPipeline : PipelineRecord :=
  { pipeline_id := "pipe_1"
    canonical_id := "P1"
    name := "Analyze Paper"
    created_at := "1"
    updated_at := "2"
    steps := [failedStep]
    current_step_index := 0
    status := PipelineStatus.running
    last_primary_viz := none
    auto_retry_attempt_count := 0 }

/-- A concrete pristine pending step (second step of `forcedPipeline`). -/
def pendingStep : PipelineStep :=
  { step_id := "step_02_tpl"
    template_id := "tpl"
    params := Json.null
    job_id := none
    status := PipelineStepStatus.pending
    run_id := none
    started_at := none
    finished_at := none }

/-- A concrete `Failed` pipeline: step 1 failed, step 2 still pending. It
satisfies the step-prefix invariant. -/
def forcedPipeline : PipelineRecord :=
  { pipeline_id := "pipe_2"
    canonical_id := "P1"
    name := "Analyze Paper"
    created_at := "1"
    updated_at := "2"
    steps := [failedStep, pendingStep]
    current_step_index := 0
    status := PipelineStatus.failed
    last_primary_viz := none
    auto_retry_attempt_count := 0 }

/-- A concrete reconciliation environment: fixed timestamp, no viz parses,
every enqueue validates, sequentially generated job ids. -/
def trivialEnv : ReconEnv :=
  { nowStr := "9"
    parseViz := fun _ => none
    enqueueOk := fun _ _ _ => true
    ids := fun n => "gen_" ++ toString n }

/-- The inductive invariant behind the single-running property: every
`Running` job is the recorded `running_job_id`, and job ids are duplicate-free. -/
def JobsInv (st : JobRuntimeState) : Prop :=
  (∀ j ∈ st.jobs, j.status = JobStatus.running → st.running_job_id = some j.job_id) ∧
  (jobIds st.jobs).Nodup

/-- The comparator of the candidate sort in `tick_auto_retry`
(main.rs:5665): `a.0.cmp(&b.0).then_with(|| a.1.cmp(&b.1))`, i.e.
lexicographic on the scheduled instant, then on the job id. -/
def candCmp (a b : Nat × String × Option (String × String × Nat)) : Ordering :=
  (compare a.1 b.1).then (compare a.2.1 b.2.1)

/-- Stable insertion of a candidate into a sorted list: the new element goes
before the first strictly greater element, matching the stability of Rust's
`sort_by`. -/
def insertCand (x : Nat × String × Option (String × String × Nat)) :
    List (Nat × String × Option (String × String × Nat)) →
    List (Nat × String × Option (String × String × Nat))
  | [] => [x]
  | y :: ys =>
    if candCmp x y = Ordering.lt then x :: y :: ys else y :: insertCand x ys

/-- Stable sort of the candidate list by `candCmp` (main.rs:5665). -/
def sortCands :
    List (Nat × String × Option (String × String × Nat)) →
    List (Nat × String × Option (String × String × Nat))
  | [] => []
  | x :: xs => insertCand x (sortCands xs)

/-- The pipeline lookup of `tick_auto_retry` (main.rs:5641-5651): walk the
pipelines with their index; at the FIRST pipeline with a step bound to the
job id, record the reference only when that pipeline's
`auto_retry_attempt_count` is below `auto_retry_max_per_pipeline`, and stop
either way (`break`); otherwise continue with the next index. -/
def findPipelineRef (settings : DesktopSettings) (jobId : String) :
    List PipelineRecord → Nat → Option (String × String × Nat)
  | [], _ => none
  | p :: rest, pidx =>
    match p.steps.find? (fun s => s.job_id == some jobId) with
    | some s =>
      if p.auto_retry_attempt_count < settings.auto_retry_max_per_pipeline then
        some (p.pipeline_id, s.step_id, pidx)
      else none
    | none => findPipelineRef settings jobId rest (pidx + 1)

/-- One iteration of the candidate scan in `tick_auto_retry`
(main.rs:5619-5660): skip a job that is not `NeedsRetry`; when `retry_at`
is absent, schedule it from `compute_next_retry_at_ms` with the incremented
attempt count; skip when the schedule has not elapsed
(`parse_retry_at_ms(...).unwrap_or(now_ms)`) or when the per-job budget is
spent; look up the pipeline reference via `findPipelineRef`; the
exhausted-budget guard at main.rs:5653-5657 re-checks only a RECORDED
reference (`if let Some(...)`), so a job whose bound pipeline is over
budget — for which `findPipelineRef` returns `none` — passes straight
through and is pushed with no pipeline reference. The in-range index read
`pipelines[*pidx]` is modeled with `[pidx]?`; the `none` arm is unreachable
because `findPipelineRef` only returns in-range indices. -/
def tickCandidate (nowMs : Nat) (settings : DesktopSettings)
    (pipelines : List PipelineRecord) (job : JobRecord) :
    Option (Nat × String × Option (String × String × Nat)) :=
  if job.status ≠ JobStatus.needsRetry then none
  else
    let retryAt := match job.retry_at with
      | none => some (compute_next_retry_at_ms nowMs job.retry_after_seconds
          (job.auto_retry_attempt_count + 1) settings)
      | some s => some s
    let nextMs := (parse_retry_at_ms retryAt).getD nowMs
    if nowMs < nextMs then none
    else if settings.auto_retry_max_per_job ≤ job.auto_retry_attempt_count then none
    else
      match findPipelineRef settings job.job_id pipelines 0 with
      | some (pid, sid, pidx) =>
        match pipelines[pidx]? with
        | some p =>
          if settings.auto_retry_max_per_pipeline ≤ p.auto_retry_attempt_count
          then none
          else some (nextMs, job.job_id, some (pid, sid, pidx))
        | none => none
      | none => some (nextMs, job.job_id, none)

/-- The candidate selection of `tick_auto_retry` (main.rs:5619-5666): gather
the candidates over the jobs snapshot, sort them by `(next_ms, job_id)`, and
take the first. A `some (_, jobId, none)` result is dispatched standalone
via `retry_job` (main.rs:5692); a `some (_, _, some ref)` result goes
through `retry_pipeline_step` plus the pipeline counter bump
(main.rs:5681-5689). -/
def tickSelect (nowMs : Nat) (settings : DesktopSettings)
    (jobs : List JobRecord) (pipelines : List PipelineRecord) :
    Option (Nat × String × Option (String × String × Nat)) :=
  (sortCands (jobs.filterMap (tickCandidate nowMs settings pipelines))).head?

/-- Settings for the C2 failing input: auto-retry on, two attempts per job,
three per pipeline. -/
def c2Settings : DesktopSettings :=
  { auto_retry_enabled := true
    auto_retry_max_per_job := 2
    auto_retry_max_per_pipeline := 3
    auto_retry_max_delay_seconds := 3600
    auto_retry_base_delay_seconds := 30 }

/-- The C2 failing job: `NeedsRetry`, schedule elapsed, per-job budget
available. -/
def c2Job : JobRecord :=
  { job_id := "j1"
    template_id := "tpl"
    canonical_id := "P1"
    params := Json.null
    status := JobStatus.needsRetry
    attempt := 1
    created_at := "0"
    updated_at := "3"
    run_id := none
    last_error := some "boom"
    retry_after_seconds := none
    retry_at := some "0"
    auto_retry_attempt_count := 0 }

/-- The step of the C2 pipeline, bound to job `j1`. -/
def c2Step : PipelineStep :=
  { step_id := "step_01_tpl"
    template_id := "tpl"
    params := Json.null
    job_id := some "j1"
    status := PipelineStepStatus.needsRetry
    run_id := none
    started_at := some "1"
    finished_at := some "3" }

/-- The C2 pipeline: its only step is bound to `j1` and its auto-retry
budget is exhausted (`auto_retry_attempt_count = 3 = max_per_pipeline`). -/
def c2Pipeline : PipelineRecord :=
  { pipeline_id := "pipe_1"
    canonical_id := "P1"
    name := "Analyze Paper"
    created_at := "0"
    updated_at := "3"
    steps := [c2Step]
    current_step_index := 0
    status := PipelineStatus.needsRetry
    last_primary_viz := none
    auto_retry_attempt_count := 3 }

/-! Theorems. -/

lemma qmax_nonneg_of_right (a : ℚ) : 0 ≤ qmax a 0 := by
  unfold qmax
  split
  · assumption
  · exact le_refl 0

lemma qmin_nonneg {a b : ℚ} (ha : 0 ≤ a) (hb : 0 ≤ b) : 0 ≤ qmin a b := by
  unfold qmin
  split <;> assumption

lemma qmax_eq_left {a b : ℚ} (h : b ≤ a) : qmax a b = a := by
  unfold qmax
  exact if_pos h

lemma log2F_le {fuel n : Nat} (hn : 0 < n) : 2 ^ log2F fuel n ≤ n := by
  induction fuel generalizing n with
  | zero => simpa [log2F] using hn
  | succ fuel ih =>
    by_cases h1 : n ≤ 1
    · simpa [log2F, if_pos h1] using hn
    · have h2 : 2 ≤ n := by omega
      have hpos : 0 < n / 2 := Nat.div_pos h2 (by norm_num)
      have hih := ih hpos
      simp only [log2F, if_neg h1]
      rw [pow_succ]
      set a := 2 ^ log2F fuel (n / 2) with ha
      omega

lemma log2F_lt {fuel n : Nat} (hfuel : n < 2 ^ fuel) : n < 2 ^ (log2F fuel n + 1) := by
  induction fuel generalizing n with
  | zero =>
    simp only [log2F]
    omega
  | succ fuel ih =>
    by_cases h1 : n ≤ 1
    · simp only [log2F, if_pos h1]
      omega
    · have hhalf : n / 2 < 2 ^ fuel := by
        rw [pow_succ] at hfuel
        omega
      have hih := ih hhalf
      simp only [log2F, if_neg h1]
      rw [pow_succ]
      set b := 2 ^ (log2F fuel (n / 2) + 1) with hb
      omega

lemma f64Exp_le {q : ℚ} (hq : 0 < q) (hden : q.den < 2 ^ 256) :
    (2 : ℚ) ^ f64Exp q ≤ q := by
  have hnumpos : 0 < q.num := Rat.num_pos.mpr hq
  set n := q.num.natAbs with hn
  set d := q.den with hd
  have hnpos : 0 < n := Int.natAbs_pos.mpr (ne_of_gt hnumpos)
  have hdpos : 0 < d := q.pos
  have hqeq : q = (n : ℚ) / (d : ℚ) := by
    have hcast : ((n : ℕ) : ℚ) = ((q.num : ℤ) : ℚ) := by
      rw [hn, Int.cast_natAbs, abs_of_pos hnumpos]
    rw [hcast, hd]
    exact (Rat.num_div_den q).symm
  set L := floorLog2 n with hL
  set M := floorLog2 d with hM
  have hLle : 2 ^ L ≤ n := log2F_le hnpos
  have hMlt : d < 2 ^ (M + 1) := log2F_lt hden
  have hdQ : (0 : ℚ) < (d : ℚ) := by exact_mod_cast hdpos
  have h2M : (0 : ℚ) < (2 : ℚ) ^ (M : ℤ) := by positivity
  have hfe : f64Exp q =
      (if d * 2 ^ L ≤ n * 2 ^ M then (L : ℤ) - M else (L : ℤ) - M - 1) := rfl
  rw [hfe]
  by_cases hif : d * 2 ^ L ≤ n * 2 ^ M
  · rw [if_pos hif]
    rw [hqeq]
    rw [zpow_sub₀ (by norm_num : (2 : ℚ) ≠ 0)]
    rw [div_le_div_iff₀ h2M hdQ]
    have h1 : ((d : ℚ)) * (2 : ℚ) ^ (L : ℤ) ≤ ((n : ℚ)) * (2 : ℚ) ^ (M : ℤ) := by
      rw [zpow_natCast, zpow_natCast]
      exact_mod_cast hif
    linarith [h1]
  · rw [if_neg hif]
    rw [hqeq]
    have hstep : ((L : ℤ) - M - 1) = (L : ℤ) - ((M : ℤ) + 1) := by ring
    rw [hstep, zpow_sub₀ (by norm_num : (2 : ℚ) ≠ 0)]
    have h2M1 : (0 : ℚ) < (2 : ℚ) ^ ((M : ℤ) + 1) := by positivity
    rw [div_le_div_iff₀ h2M1 hdQ]
    have hkey : d * 2 ^ L < n * 2 ^ (M + 1) := by
      calc d * 2 ^ L < 2 ^ (M + 1) * 2 ^ L :=
            mul_lt_mul_of_pos_right hMlt (by positivity)
        _ ≤ 2 ^ (M + 1) * n := Nat.mul_le_mul_left _ hLle
        _ = n * 2 ^ (M + 1) := Nat.mul_comm _ _
    have h1 : ((d : ℚ)) * (2 : ℚ) ^ (L : ℤ) < ((n : ℚ)) * (2 : ℚ) ^ ((M : ℤ) + 1) := by
      have hcast : ((M : ℤ) + 1) = ((M + 1 : ℕ) : ℤ) := by push_cast; ring
      rw [hcast, zpow_natCast, zpow_natCast]
      exact_mod_cast hkey
    linarith [h1]

lemma roundHalfEven_intCast (j : ℤ) : roundHalfEven (j : ℚ) = j := by
  simp [roundHalfEven, Int.floor_intCast]

lemma roundF64_of_scaled_int {q : ℚ} (hq : 0 < q) (j : ℤ)
    (hj : q * (2 : ℚ) ^ (52 - f64Exp q) = (j : ℚ)) :
    roundF64 q = q := by
  unfold roundF64
  rw [if_neg (ne_of_gt hq), if_neg (not_lt_of_gt hq)]
  rw [abs_of_pos hq, hj, roundHalfEven_intCast, ← hj]
  rw [mul_assoc, ← zpow_add₀ (by norm_num : (2 : ℚ) ≠ 0)]
  simp

lemma roundF64_dyadic {m k : Nat} (hm : 0 < m) (hm53 : m ≤ 2 ^ 53) (hk : k ≤ 200) :
    roundF64 ((m : ℚ) / 2 ^ k) = (m : ℚ) / 2 ^ k := by
  set q : ℚ := (m : ℚ) / 2 ^ k with hqdef
  have hq : 0 < q := by
    rw [hqdef]
    positivity
  have hden : q.den < 2 ^ 256 := by
    have hdvd : (q.den : ℤ) ∣ (2 ^ k : ℤ) := by
      have h1 : q = Rat.divInt (m : ℤ) ((2 : ℤ) ^ k) := by
        rw [hqdef, Rat.divInt_eq_div]
        push_cast
        ring
      rw [h1]
      exact Rat.den_dvd _ _
    have hle : (q.den : ℤ) ≤ (2 : ℤ) ^ k := Int.le_of_dvd (by positivity) hdvd
    have hle2 : q.den ≤ 2 ^ k := by exact_mod_cast hle
    calc q.den ≤ 2 ^ k := hle2
      _ ≤ 2 ^ 200 := Nat.pow_le_pow_right (by norm_num) hk
      _ < 2 ^ 256 := by norm_num
  have he := f64Exp_le hq hden
  have hqz : q = (m : ℚ) * (2 : ℚ) ^ (-(k : ℤ)) := by
    rw [hqdef, zpow_neg, zpow_natCast, div_eq_mul_inv]
  have hub : q ≤ (2 : ℚ) ^ ((53 : ℤ) - k) := by
    rw [hqz]
    have hmq : (m : ℚ) ≤ (2 : ℚ) ^ ((53 : ℤ)) := by
      rw [show ((53 : ℤ)) = ((53 : ℕ) : ℤ) from rfl, zpow_natCast]
      exact_mod_cast hm53
    calc (m : ℚ) * (2 : ℚ) ^ (-(k : ℤ)) ≤ (2 : ℚ) ^ ((53 : ℤ)) * (2 : ℚ) ^ (-(k : ℤ)) :=
          mul_le_mul_of_nonneg_right hmq (by positivity)
      _ = (2 : ℚ) ^ ((53 : ℤ) - k) := by
          rw [← zpow_add₀ (by norm_num : (2 : ℚ) ≠ 0)]
          ring_nf
  have hele : f64Exp q ≤ (53 : ℤ) - k := by
    have h2 : (2 : ℚ) ^ f64Exp q ≤ (2 : ℚ) ^ ((53 : ℤ) - k) := le_trans he hub
    exact (zpow_le_zpow_iff_right₀ (by norm_num : (1 : ℚ) < 2)).mp h2
  set s : ℤ := 52 - f64Exp q with hs
  have hqs : q * (2 : ℚ) ^ s = (m : ℚ) * (2 : ℚ) ^ (s - k) := by
    rw [hqz, mul_assoc, ← zpow_add₀ (by norm_num : (2 : ℚ) ≠ 0),
      show -(k : ℤ) + s = s - k from by ring]
  rcases lt_or_eq_of_le hm53 with hlt | heq
  · -- m < 2 ^ 53: the scale exceeds k, so the scaled value is an integer
    have hq_lt : q < (2 : ℚ) ^ ((53 : ℤ) - k) := by
      rw [hqz]
      have hmq : (m : ℚ) < (2 : ℚ) ^ ((53 : ℤ)) := by
        rw [show ((53 : ℤ)) = ((53 : ℕ) : ℤ) from rfl, zpow_natCast]
        exact_mod_cast hlt
      calc (m : ℚ) * (2 : ℚ) ^ (-(k : ℤ)) < (2 : ℚ) ^ ((53 : ℤ)) * (2 : ℚ) ^ (-(k : ℤ)) :=
            mul_lt_mul_of_pos_right hmq (by positivity)
        _ = (2 : ℚ) ^ ((53 : ℤ) - k) := by
            rw [← zpow_add₀ (by norm_num : (2 : ℚ) ≠ 0)]
            ring_nf
    have helt : f64Exp q < (53 : ℤ) - k :=
      (zpow_lt_zpow_iff_right₀ (by norm_num : (1 : ℚ) < 2)).mp (lt_of_le_of_lt he hq_lt)
    have hsk : 0 ≤ s - k := by omega
    refine roundF64_of_scaled_int hq ((m : ℤ) * 2 ^ (s - k).toNat) ?_
    rw [← hs, hqs]
    push_cast
    rw [← zpow_natCast (2 : ℚ) (s - k).toNat, Int.toNat_of_nonneg hsk]
  · -- m = 2 ^ 53: q is itself a power of two, always exactly representable
    have ht : 0 ≤ (53 : ℤ) - k + s := by omega
    refine roundF64_of_scaled_int hq (2 ^ ((53 : ℤ) - k + s).toNat) ?_
    rw [← hs, hqs, heq]
    push_cast
    rw [← zpow_natCast (2 : ℚ) ((53 : ℤ) - k + s).toNat, Int.toNat_of_nonneg ht]
    rw [show ((53 : ℤ) - k + s) = (53 : ℤ) + (s - k) from by ring,
      zpow_add₀ (by norm_num : (2 : ℚ) ≠ 0)]
    norm_num

lemma roundF64_zero : roundF64 0 = 0 := by
  unfold roundF64
  rw [if_pos rfl]

lemma roundF64_natCast {m : Nat} (hm53 : m ≤ 2 ^ 53) : roundF64 (m : ℚ) = m := by
  rcases Nat.eq_zero_or_pos m with hz | hp
  · subst hz
    simpa using roundF64_zero
  · have := roundF64_dyadic hp hm53 (k := 0) (by norm_num)
    simpa using this

lemma roundF64_add_natCast_dyadic {a m k : Nat} (hm : 0 < m)
    (hbound : a * 2 ^ k + m ≤ 2 ^ 53) (hk : k ≤ 200) :
    roundF64 ((a : ℚ) + (m : ℚ) / 2 ^ k) = (a : ℚ) + (m : ℚ) / 2 ^ k := by
  have heq : (a : ℚ) + (m : ℚ) / 2 ^ k = ((a * 2 ^ k + m : ℕ) : ℚ) / 2 ^ k := by
    push_cast
    field_simp
  rw [heq]
  exact roundF64_dyadic (by positivity) hbound hk

lemma roundF64_eval {q : ℚ} (hq : 0 < q) (e : ℤ) (hf : f64Exp q = e) (j : ℤ)
    (hj : roundHalfEven (q * (2 : ℚ) ^ (52 - e)) = j) :
    roundF64 q = (j : ℚ) * (2 : ℚ) ^ (-(52 - e)) := by
  unfold roundF64
  rw [if_neg (ne_of_gt hq), if_neg (not_lt_of_gt hq)]
  rw [abs_of_pos hq, hf, hj]

/-- `2 ^ 53 + 1` is the first integer binary64 cannot represent: it rounds
down to `2 ^ 53` (the tie between `2 ^ 53` and `2 ^ 53 + 2` goes to the even
significand). -/
lemma roundF64_succ_two_pow_53 :
    roundF64 ((9007199254740993 : ℚ)) = 9007199254740992 := by
  rw [roundF64_eval (by norm_num) 53 (by decide) 4503599627370496 ?_]
  · norm_num
  · rw [show ((52 : ℤ) - 53) = (-1 : ℤ) from by norm_num]
    rw [zpow_neg, zpow_one]
    norm_num [roundHalfEven]

/-- Once the roundings around the delay are identities, the tail of
`computeNextRetryAtQ` collapses to `now + delay * 1000`. -/
lemma computeNextRetryAt_tail_exact {nowMs : Nat} {c : ℚ}
    (hnow : nowMs ≤ 2 ^ 53)
    (hc0 : 0 ≤ c)
    (hcR : roundF64 (c * 1000) = c * 1000)
    (hsR : roundF64 ((nowMs : ℚ) + c * 1000) = (nowMs : ℚ) + c * 1000) :
    qmax (roundF64 (roundF64 (nowMs : ℚ) + roundF64 (c * 1000)))
      (roundF64 (nowMs : ℚ)) = (nowMs : ℚ) + c * 1000 := by
  rw [roundF64_natCast hnow, hcR, hsR]
  exact qmax_eq_left (by nlinarith)

/-- On the `f64`-exact input range, `compute_next_retry_at_ms` computes
exactly `now + delay * 1000` with the capped delay formula. -/
lemma backoff_exact (nowMs : Nat) (hint : Option ℚ) (attemptIndex : Nat)
    (settings : DesktopSettings)
    (hnow : nowMs < 2 ^ 32)
    (hmax : settings.auto_retry_max_delay_seconds < 2 ^ 34)
    (hbase : settings.auto_retry_base_delay_seconds < 2 ^ 64)
    (hhint : ∀ h ∈ hint, ∃ (z : ℤ) (kh : Nat),
      kh ≤ 20 ∧ z.natAbs < 2 ^ 32 ∧ h = (z : ℚ) / 2 ^ kh) :
    computeNextRetryAtQ nowMs hint attemptIndex settings =
      (nowMs : ℚ) + specBackoffDelaySecondsCapped hint attemptIndex settings * 1000 := by
  have hnow53 : nowMs ≤ 2 ^ 53 := by omega
  have hmaxR : roundF64 ((settings.auto_retry_max_delay_seconds : ℕ) : ℚ) =
      (settings.auto_retry_max_delay_seconds : ℚ) :=
    roundF64_natCast (by omega)
  cases hint with
  | none =>
    simp only [computeNextRetryAtQ, specBackoffDelaySecondsCapped]
    set D : ℕ := min (satMul128 settings.auto_retry_base_delay_seconds
      (2 ^ (min (attemptIndex - 1) 31))) settings.auto_retry_max_delay_seconds with hD
    have hDle : D ≤ settings.auto_retry_max_delay_seconds := by
      rw [hD]
      exact Nat.min_le_right _ _
    have hDR : roundF64 ((D : ℕ) : ℚ) = (D : ℚ) := roundF64_natCast (by omega)
    have hmulR : roundF64 ((D : ℚ) * 1000) = (D : ℚ) * 1000 := by
      have h1 : ((D : ℕ) : ℚ) * 1000 = ((D * 1000 : ℕ) : ℚ) := by push_cast; ring
      rw [h1]
      exact roundF64_natCast (by omega)
    have hsumR : roundF64 ((nowMs : ℚ) + (D : ℚ) * 1000) =
        (nowMs : ℚ) + (D : ℚ) * 1000 := by
      have h1 : (nowMs : ℚ) + ((D : ℕ) : ℚ) * 1000 = ((nowMs + D * 1000 : ℕ) : ℚ) := by
        push_cast; ring
      rw [h1]
      exact roundF64_natCast (by omega)
    rw [hDR]
    rw [computeNextRetryAt_tail_exact hnow53 (by positivity) hmulR hsumR]
    have hsat : satMul128 settings.auto_retry_base_delay_seconds
        (2 ^ (min (attemptIndex - 1) 31)) =
        settings.auto_retry_base_delay_seconds * 2 ^ (min (attemptIndex - 1) 31) := by
      unfold satMul128
      have hpow : (2 : ℕ) ^ min (attemptIndex - 1) 31 ≤ 2 ^ 31 :=
        Nat.pow_le_pow_right (by norm_num) (Nat.min_le_right _ _)
      have hlt : settings.auto_retry_base_delay_seconds * 2 ^ min (attemptIndex - 1) 31 ≤
          2 ^ 128 - 1 := by
        calc settings.auto_retry_base_delay_seconds * 2 ^ min (attemptIndex - 1) 31
            ≤ 2 ^ 64 * 2 ^ 31 := Nat.mul_le_mul (Nat.le_of_lt hbase) hpow
          _ ≤ 2 ^ 128 - 1 := by norm_num
      exact min_eq_left hlt
    rw [hD, hsat]
  | some h =>
    obtain ⟨z, kh, hkh, hz, hh⟩ := hhint h rfl
    simp only [computeNextRetryAtQ, specBackoffDelaySecondsCapped]
    rw [hmaxR]
    set c : ℚ := qmin (qmax h 0) ((settings.auto_retry_max_delay_seconds : ℕ) : ℚ)
      with hc
    have hc0 : 0 ≤ c := by
      rw [hc]
      exact qmin_nonneg (qmax_nonneg_of_right h) (by positivity)
    -- the clamp result is 0, the positive hint, or max_delay
    have hdisp : c = 0 ∨ (c = h ∧ 0 < h) ∨
        c = ((settings.auto_retry_max_delay_seconds : ℕ) : ℚ) := by
      rw [hc]
      unfold qmin qmax
      by_cases h0 : (0 : ℚ) ≤ h
      · rw [if_pos h0]
        rcases lt_or_eq_of_le h0 with hpos | hzero
        · by_cases hcmp : h ≤ ((settings.auto_retry_max_delay_seconds : ℕ) : ℚ)
          · rw [if_pos hcmp]
            exact Or.inr (Or.inl ⟨rfl, hpos⟩)
          · rw [if_neg hcmp]
            exact Or.inr (Or.inr rfl)
        · rw [← hzero]
          rw [if_pos (by positivity)]
          exact Or.inl rfl
      · rw [if_neg h0]
        rw [if_pos (by positivity)]
        exact Or.inl rfl
    have hround : roundF64 (c * 1000) = c * 1000 ∧
        roundF64 ((nowMs : ℚ) + c * 1000) = (nowMs : ℚ) + c * 1000 := by
      rcases hdisp with h0 | ⟨hch, hpos⟩ | hcm
      · rw [h0]
        norm_num [roundF64_zero]
        exact roundF64_natCast hnow53
      · have h2k : (0 : ℚ) < 2 ^ kh := by positivity
        have hzQ : (0 : ℚ) < (z : ℚ) := by
          have hmul := mul_pos (hh ▸ hpos) h2k
          rwa [div_mul_cancel₀ _ (ne_of_gt h2k)] at hmul
        have hz0 : 0 < z := by exact_mod_cast hzQ
        set zt : ℕ := z.toNat with hzt
        have hztpos : 0 < zt := by omega
        have hztlt : zt < 2 ^ 32 := by
          rw [hzt]
          omega
        have hhz : h = ((zt : ℕ) : ℚ) / 2 ^ kh := by
          rw [hh, hzt]
          congr 1
          exact_mod_cast (Int.toNat_of_nonneg (le_of_lt hz0)).symm
        have hmuleq : ((zt : ℕ) : ℚ) / 2 ^ kh * 1000 = ((1000 * zt : ℕ) : ℚ) / 2 ^ kh := by
          push_cast
          ring
        have hm53 : 1000 * zt ≤ 2 ^ 53 := by omega
        have hk200 : kh ≤ 200 := by omega
        have hbound : nowMs * 2 ^ kh + 1000 * zt ≤ 2 ^ 53 := by
          have hk20 : (2 : ℕ) ^ kh ≤ 2 ^ 20 := Nat.pow_le_pow_right (by norm_num) hkh
          have h1 : nowMs * 2 ^ kh ≤ (2 ^ 32 - 1) * 2 ^ 20 :=
            Nat.mul_le_mul (by omega) hk20
          omega
        constructor
        · rw [hch, hhz, hmuleq]
          exact roundF64_dyadic (by omega) hm53 hk200
        · rw [hch, hhz, hmuleq]
          exact roundF64_add_natCast_dyadic (by omega) hbound hk200
      · constructor
        · rw [hcm, show ((settings.auto_retry_max_delay_seconds : ℕ) : ℚ) * 1000 =
              ((settings.auto_retry_max_delay_seconds * 1000 : ℕ) : ℚ) from by
            push_cast; ring]
          exact roundF64_natCast (by omega)
        · rw [hcm, show (nowMs : ℚ) + ((settings.auto_retry_max_delay_seconds : ℕ) : ℚ)
              * 1000 = ((nowMs + settings.auto_retry_max_delay_seconds * 1000 : ℕ) : ℚ)
              from by push_cast; ring]
          exact roundF64_natCast (by omega)
    rw [computeNextRetryAt_tail_exact hnow53 hc0 hround.1 hround.2]

/-- C3 counterexample: as literally stated — `delay = base_delay * 2 ^ (attempt_index - 1)`
clamped to `max_delay` — the claim fails at `now = 0`, no hint, `attempt_index = 33`,
`base_delay = 1`, `max_delay = 10^10`: the source caps the exponent at 31, giving
`2^31 * 1000 = 2147483648000` ms of delay, while the claimed formula gives
`min(2^32, 10^10) * 1000 = 4294967296000` ms. (All values here are exactly
representable in `f64`, so the rounding model is an identity throughout.) -/
theorem backoff_exponent_cap_counterexample :
    computeNextRetryAtQ 0 none 33
        { auto_retry_enabled := true
          auto_retry_max_per_job := 2
          auto_retry_max_per_pipeline := 3
          auto_retry_max_delay_seconds := 10000000000
          auto_retry_base_delay_seconds := 1 } ≠
      (0 : ℚ) + specBackoffDelaySeconds none 33
        { auto_retry_enabled := true
          auto_retry_max_per_job := 2
          auto_retry_max_per_pipeline := 3
          auto_retry_max_delay_seconds := 10000000000
          auto_retry_base_delay_seconds := 1 } * 1000 := by
  rw [backoff_exact 0 none 33 _ (by norm_num) (by norm_num) (by norm_num)
    (by intro h hmem; exact absurd hmem (by simp))]
  norm_num [specBackoffDelaySecondsCapped, specBackoffDelaySeconds]

/-- C3 (amended): the source caps the backoff exponent at 31 and computes
the retry instant in `f64`, so the formula holds exactly on the `f64`-exact
input range: for every `(now, hint, attempt_index, settings)` with
`now < 2 ^ 32`, `max_delay < 2 ^ 34`, `base_delay` in `u64` range, and the
hint (itself an `f64` value) of the form `z / 2 ^ k` with `|z| < 2 ^ 32` and
`k ≤ 20`, the computed retry-at instant equals `now` plus the delay in
milliseconds, where the delay is the hint clamped to `[0, max_delay]` when
supplied and otherwise `base_delay * 2 ^ min(attempt_index - 1, 31)` clamped
to `max_delay`; in particular
`compute_next_retry_at_ms(now=1000, hint=12.5 s, attempt=3, defaults) = "13500"`
and `compute_next_retry_at_ms(now=2000, no hint, attempt=3, base=10, max=25) = "27000"`.
Beyond `f64`'s exact integer range the stored instant drifts from the exact
formula: at `now = 2 ^ 53 + 1` ms with a zero hint the source stores
`"9007199254740992"` — that is `now - 1`, not `now + delay = now` — because
`now_ms as f64` rounds to `2 ^ 53`. Determinism in the four inputs is
immediate: the model is a pure function of them. -/
theorem backoff_formula_correct (nowMs : Nat) (hint : Option ℚ) (attemptIndex : Nat)
    (settings : DesktopSettings)
    (hnow : nowMs < 2 ^ 32)
    (hmax : settings.auto_retry_max_delay_seconds < 2 ^ 34)
    (hbase : settings.auto_retry_base_delay_seconds < 2 ^ 64)
    (hhint : ∀ h ∈ hint, ∃ (z : ℤ) (kh : Nat),
      kh ≤ 20 ∧ z.natAbs < 2 ^ 32 ∧ h = (z : ℚ) / 2 ^ kh) :
    computeNextRetryAtQ nowMs hint attemptIndex settings =
      (nowMs : ℚ) + specBackoffDelaySecondsCapped hint attemptIndex settings * 1000 ∧
    compute_next_retry_at_ms 1000 (some (25/2 : ℚ)) 3 DesktopSettings.default = "13500" ∧
    compute_next_retry_at_ms 2000 none 3
      { DesktopSettings.default with
          auto_retry_base_delay_seconds := 10
          auto_retry_max_delay_seconds := 25 } = "27000" ∧
    compute_next_retry_at_ms 9007199254740993 (some (0 : ℚ)) 1
      DesktopSettings.default = "9007199254740992" := by
  refine ⟨backoff_exact nowMs hint attemptIndex settings hnow hmax hbase hhint, ?_, ?_, ?_⟩
  · have h1 := backoff_exact 1000 (some (25/2 : ℚ)) 3 DesktopSettings.default
      (by norm_num) (by norm_num [DesktopSettings.default])
      (by norm_num [DesktopSettings.default])
      (by
        intro h hmem
        refine ⟨25, 1, by norm_num, by norm_num, ?_⟩
        simp only [Option.mem_def, Option.some.injEq] at hmem
        rw [← hmem]
        norm_num)
    have h2 : computeNextRetryAtQ 1000 (some (25/2 : ℚ)) 3 DesktopSettings.default =
        13500 := by
      rw [h1]
      norm_num [specBackoffDelaySecondsCapped, qmin, qmax, DesktopSettings.default]
    unfold compute_next_retry_at_ms
    rw [h2, show ((13500 : ℚ)) = (((13500 : ℤ)) : ℚ) from by norm_num,
      roundHalfEven_intCast]
    rfl
  · have h1 := backoff_exact 2000 none 3
      { DesktopSettings.default with
          auto_retry_base_delay_seconds := 10
          auto_retry_max_delay_seconds := 25 }
      (by norm_num) (by norm_num [DesktopSettings.default])
      (by norm_num [DesktopSettings.default])
      (by intro h hmem; exact absurd hmem (by simp))
    have h2 : computeNextRetryAtQ 2000 none 3
        { DesktopSettings.default with
            auto_retry_base_delay_seconds := 10
            auto_retry_max_delay_seconds := 25 } = 27000 := by
      rw [h1]
      norm_num [specBackoffDelaySecondsCapped, DesktopSettings.default]
    unfold compute_next_retry_at_ms
    rw [h2, show ((27000 : ℚ)) = (((27000 : ℤ)) : ℚ) from by norm_num,
      roundHalfEven_intCast]
    rfl
  · have hdelay : qmin (qmax (0 : ℚ) 0)
        (roundF64 ((DesktopSettings.default.auto_retry_max_delay_seconds : ℕ) : ℚ)) =
        0 := by
      rw [roundF64_natCast (by norm_num [DesktopSettings.default])]
      norm_num [qmin, qmax, DesktopSettings.default]
    have hR92 : roundF64 ((9007199254740992 : ℚ)) = 9007199254740992 := by
      rw [show ((9007199254740992 : ℚ)) = (((9007199254740992 : ℕ)) : ℚ) from by
        norm_num]
      rw [roundF64_natCast (by norm_num)]
    have hq : computeNextRetryAtQ 9007199254740993 (some (0 : ℚ)) 1
        DesktopSettings.default = 9007199254740992 := by
      simp only [computeNextRetryAtQ]
      rw [hdelay]
      norm_num [roundF64_zero]
      rw [roundF64_succ_two_pow_53, hR92]
      norm_num [qmax]
    unfold compute_next_retry_at_ms
    rw [hq, show ((9007199254740992 : ℚ)) = (((9007199254740992 : ℤ)) : ℚ) from by
      norm_num, roundHalfEven_intCast]
    rfl

/-- Witness for `backoff_formula_correct` at concrete inputs. -/
theorem backoff_formula_correct_witness :
    computeNextRetryAtQ 2000 none 3
        { DesktopSettings.default with
            auto_retry_base_delay_seconds := 10
            auto_retry_max_delay_seconds := 25 } =
      (2000 : ℚ) + specBackoffDelaySecondsCapped none 3
        { DesktopSettings.default with
            auto_retry_base_delay_seconds := 10
            auto_retry_max_delay_seconds := 25 } * 1000 :=
  (backoff_formula_correct 2000 none 3
    { DesktopSettings.default with
        auto_retry_base_delay_seconds := 10
        auto_retry_max_delay_seconds := 25 } (by norm_num)
    (by norm_num [DesktopSettings.default]) (by norm_num [DesktopSettings.default])
    (by intro h hmem; exact absurd hmem (by simp))).1

lemma jobIds_set_of_same_id {jobs : List JobRecord} {idx : Nat} {j j2 : JobRecord}
    (hj : jobs[idx]? = some j) (hid : j2.job_id = j.job_id) :
    jobIds (jobs.set idx j2) = jobIds jobs := by
  have hlt : idx < jobs.length := by
    by_contra hge
    rw [List.getElem?_eq_none (Nat.le_of_not_lt hge)] at hj
    exact Option.noConfusion hj
  unfold jobIds
  rw [List.map_set]
  apply List.ext_getElem?
  intro n
  rw [List.getElem?_set]
  by_cases hn : idx = n
  · subst hn
    rw [if_pos rfl, if_pos (by simpa using hlt), List.getElem?_map, hj]
    simp [hid]
  · rw [if_neg hn]

lemma jobIds_set_nodup {jobs : List JobRecord} {idx : Nat} {j j2 : JobRecord}
    (hj : jobs[idx]? = some j) (hid : j2.job_id = j.job_id)
    (hn : (jobIds jobs).Nodup) : (jobIds (jobs.set idx j2)).Nodup := by
  rw [jobIds_set_of_same_id hj hid]
  exact hn

lemma classify_fst_ne_running (canceled : Bool) (result : ClassifiedResult) :
    (classify_job_status canceled result).1 ≠ JobStatus.running := by
  unfold classify_job_status
  by_cases h : canceled = true
  · simp [h]
  · cases result <;> simp [h]

lemma countRunning_le_one_of_inv (st : JobRuntimeState) (h : JobsInv st) :
    countRunning st.jobs ≤ 1 := by
  obtain ⟨hrun, hnodup⟩ := h
  unfold countRunning
  by_contra hgt
  push_neg at hgt
  set l := st.jobs.filter (fun j => j.status == JobStatus.running) with hl
  have hsub : (jobIds l).Sublist (jobIds st.jobs) :=
    List.Sublist.map _ (List.filter_sublist _)
  have hnl : (jobIds l).Nodup := List.Nodup.sublist hsub hnodup
  have h1 : 1 < l.length := hgt
  have h0 : 0 < l.length := Nat.lt_of_lt_of_le Nat.one_pos (Nat.le_of_lt h1)
  have hm0 := List.mem_filter.mp (l.getElem_mem h0)
  have hm1 := List.mem_filter.mp (l.getElem_mem h1)
  have hr0 : (l.get ⟨0, h0⟩).status = JobStatus.running := by
    have := hm0.2; simpa using this
  have hr1 : (l.get ⟨1, h1⟩).status = JobStatus.running := by
    have := hm1.2; simpa using this
  have hid0 := hrun _ hm0.1 hr0
  have hid1 := hrun _ hm1.1 hr1
  have hSame : (l.get ⟨0, h0⟩).job_id = (l.get ⟨1, h1⟩).job_id := by
    have := hid0.symm.trans hid1
    exact Option.some.inj this
  have hlen : l.length = (jobIds l).length := by simp [jobIds]
  have hj0 : 0 < (jobIds l).length := hlen ▸ h0
  have hj1 : 1 < (jobIds l).length := hlen ▸ h1
  have hEq : (jobIds l).get ⟨0, hj0⟩ = (jobIds l).get ⟨1, hj1⟩ := by
    simpa [jobIds] using hSame
  have : (0 : Nat) = 1 := (List.Nodup.getElem_inj_iff hnl).mp hEq
  exact Nat.noConfusion this

lemma findIdx_job_id {jobs : List JobRecord} {jobId : String} {idx : Nat}
    (h : jobs.findIdx? (fun j => j.job_id == jobId) = some idx) :
    ∃ hlt : idx < jobs.length, (jobs.get ⟨idx, hlt⟩).job_id = jobId := by
  obtain ⟨hlt, hp, -⟩ := List.findIdx?_eq_some_iff_getElem.mp h
  exact ⟨hlt, by simpa using hp⟩

lemma mem_of_getElem?_eq_some {α : Type} {l : List α} {idx : Nat} {a : α}
    (hj : l[idx]? = some a) : a ∈ l := by
  have hlt : idx < l.length := by
    by_contra hge
    rw [List.getElem?_eq_none (Nat.le_of_not_lt hge)] at hj
    exact Option.noConfusion hj
  have := List.getElem?_eq_getElem hlt
  rw [hj] at this
  exact (Option.some.inj this) ▸ List.getElem_mem hlt

lemma jstep_preserves_inv {s s' : JobRuntimeState} (h : JStep s s') (hinv : JobsInv s) :
    JobsInv s' := by
  obtain ⟨hrun, hnodup⟩ := hinv
  cases h with
  | enqueue jobId tpl canon params nowStr hfresh =>
    constructor
    · intro j hj hjr
      rcases List.mem_append.mp hj with hj | hj
      · exact hrun j hj hjr
      · simp only [List.mem_singleton] at hj
        subst hj
        exact absurd hjr (by simp [freshJobRecord])
    · show (jobIds (s.jobs ++ [freshJobRecord jobId tpl canon params nowStr])).Nodup
      unfold jobIds at hfresh ⊢
      rw [List.map_append]
      simp only [List.map_cons, List.map_nil]
      rw [List.nodup_append]
      refine ⟨hnodup, List.nodup_singleton _, ?_⟩
      intro a ha
      simp only [freshJobRecord, List.mem_singleton]
      intro hb
      subst hb
      exact hfresh ha
  | pick st' nowStr job h =>
    unfold workerPickNext at h
    cases hmk : s.running_job_id with
    | some r => rw [hmk] at h; exact Option.noConfusion h
    | none =>
      rw [hmk] at h
      dsimp only at h
      cases hidx : s.jobs.findIdx? (fun j => j.status == JobStatus.queued) with
      | none => rw [hidx] at h; exact Option.noConfusion h
      | some idx =>
        rw [hidx] at h
        dsimp only at h
        cases hj : s.jobs[idx]? with
        | none => rw [hj] at h; exact Option.noConfusion h
        | some j =>
          rw [hj] at h
          simp only [Option.some.injEq, Prod.mk.injEq] at h
          obtain ⟨hst', -⟩ := h
          subst hst'
          constructor
          · intro k hk hkr
            rcases List.mem_or_eq_of_mem_set hk with hk | hk
            · exact absurd (hrun k hk hkr) (by simp [hmk])
            · subst hk; rfl
          · exact jobIds_set_nodup hj rfl hnodup
  | applyResult st' jobId result resultRunId inferredRunId settings nowMs nowStr hmark h =>
    unfold apply_job_result at h
    cases hidx : s.jobs.findIdx? (fun j => j.job_id == jobId) with
    | none => rw [hidx] at h; exact Except.noConfusion h
    | some idx =>
      rw [hidx] at h
      dsimp only at h
      cases hj : s.jobs[idx]? with
      | none => rw [hj] at h; exact Except.noConfusion h
      | some j =>
        rw [hj] at h
        dsimp only at h
        simp only [Except.ok.injEq] at h
        subst h
        obtain ⟨hlt, hidEq⟩ := findIdx_job_id hidx
        have hidEq2 : (s.jobs[idx]).job_id = jobId := hidEq
        have hjEq : s.jobs[idx] = j := by
          have := List.getElem?_eq_getElem hlt
          rw [hj] at this
          exact (Option.some.inj this).symm
        constructor
        · intro k hk hkr
          exfalso
          rcases List.mem_iff_getElem.mp hk with ⟨m, hm, hkm⟩
          have hmlen : m < s.jobs.length := by simpa using hm
          by_cases hmi : idx = m
          · subst hmi
            rw [List.getElem_set_self] at hkm
            subst hkm
            exact classify_fst_ne_running _ _ (by simpa using hkr)
          · rw [List.getElem_set_ne hmi] at hkm
            have hkmem : k ∈ s.jobs := hkm ▸ List.getElem_mem hmlen
            have := hrun k hkmem hkr
            rw [hmark] at this
            have hkId : k.job_id = jobId := (Option.some.inj this).symm
            have hmIds : m < (jobIds s.jobs).length := by simpa [jobIds] using hmlen
            have hltIds : idx < (jobIds s.jobs).length := by simpa [jobIds] using hlt
            have hIds : (jobIds s.jobs).get ⟨m, hmIds⟩ =
                (jobIds s.jobs).get ⟨idx, hltIds⟩ := by
              simp only [jobIds, List.get_eq_getElem, List.getElem_map]
              rw [hkm, hkId, hidEq2]
            have := (List.Nodup.getElem_inj_iff hnodup).mp hIds
            exact hmi this.symm
        · exact jobIds_set_nodup hj rfl hnodup
  | cancel st' jobId nowStr updated h =>
    unfold cancel_job at h
    cases hidx : s.jobs.findIdx? (fun j => j.job_id == jobId) with
    | none => rw [hidx] at h; exact Except.noConfusion h
    | some idx =>
      rw [hidx] at h
      dsimp only at h
      cases hj : s.jobs[idx]? with
      | none => rw [hj] at h; exact Except.noConfusion h
      | some j =>
        rw [hj] at h
        dsimp only at h
        simp only [Except.ok.injEq, Prod.mk.injEq] at h
        obtain ⟨hst', -⟩ := h
        subst hst'
        constructor
        · intro k hk hkr
          rcases List.mem_or_eq_of_mem_set hk with hk | hk
          · exact hrun k hk hkr
          · exfalso
            subst hk
            cases hs : j.status <;> simp [hs] at hkr
        · refine jobIds_set_nodup hj ?_ hnodup
          cases hs : j.status <;> simp [hs]
  | retry st' jobId force nowMs nowStr updated h =>
    unfold retry_job at h
    cases hidx : s.jobs.findIdx? (fun j => j.job_id == jobId) with
    | none => rw [hidx] at h; exact Except.noConfusion h
    | some idx =>
      rw [hidx] at h
      dsimp only at h
      cases hj : s.jobs[idx]? with
      | none => rw [hj] at h; exact Except.noConfusion h
      | some j =>
        rw [hj] at h
        dsimp only at h
        by_cases hg : ¬(j.status = JobStatus.failed ∨ j.status = JobStatus.needsRetry ∨
            force = true)
        · rw [if_pos hg] at h; exact Except.noConfusion h
        · rw [if_neg hg] at h
          split at h
          · exact Except.noConfusion h
          · simp only [Except.ok.injEq, Prod.mk.injEq] at h
            obtain ⟨hst', -⟩ := h
            subst hst'
            constructor
            · intro k hk hkr
              rcases List.mem_or_eq_of_mem_set hk with hk | hk
              · exact hrun k hk hkr
              · subst hk; simp at hkr
            · exact jobIds_set_nodup hj rfl hnodup
  | clearFinished =>
    unfold clear_finished_jobs
    constructor
    · intro k hk hkr
      exact hrun k (List.mem_of_mem_filter hk) hkr
    · exact List.Nodup.sublist (List.Sublist.map _ (List.filter_sublist _)) hnodup
  | tickFill settings nowMs =>
    constructor
    · intro k hk hkr
      simp only [tickFillRetryAt, List.mem_map] at hk
      obtain ⟨a, ha, hak⟩ := hk
      have hstat : k.status = a.status := by rw [← hak]; split <;> rfl
      have hid2 : k.job_id = a.job_id := by rw [← hak]; split <;> rfl
      have := hrun a ha (hstat ▸ hkr)
      show s.running_job_id = some k.job_id
      rw [hid2]
      exact this
    · have heq : jobIds (tickFillRetryAt s.jobs settings nowMs) = jobIds s.jobs := by
        unfold jobIds tickFillRetryAt
        rw [List.map_map]
        apply List.map_congr_left
        intro a ha
        simp only [Function.comp_apply]
        split <;> rfl
      exact heq ▸ hnodup
  | tickBump jobId =>
    show JobsInv { s with jobs := bumpAutoRetryCount s.jobs jobId }
    unfold bumpAutoRetryCount
    cases hidx : s.jobs.findIdx? (fun j => j.job_id == jobId) with
    | none => exact ⟨hrun, hnodup⟩
    | some idx =>
      dsimp only
      cases hj : s.jobs[idx]? with
      | none => exact ⟨hrun, hnodup⟩
      | some j =>
        constructor
        · intro k hk hkr
          rcases List.mem_or_eq_of_mem_set hk with hk | hk
          · exact hrun k hk hkr
          · subst hk
            exact hrun j (mem_of_getElem?_eq_some hj) (by simpa using hkr)
        · exact jobIds_set_nodup hj rfl hnodup

/-- C1: Single-running invariant. For every state of the job runtime reachable
from the initial state through the operations of the system (enqueue, worker
pick-up, apply result, cancel, retry, clear-finished, auto-retry tick), at most
one job record has status `Running`: the worker only transitions a job from
`Queued` to `Running` when `running_job_id` is `None` (main.rs:3211-3224), and
`apply_job_result` clears the running marker (main.rs:2929). -/
theorem single_running_invariant (st : JobRuntimeState)
    (h : Relation.ReflTransGen JStep JobRuntimeState.init st) :
    countRunning st.jobs ≤ 1 := by
  have hinv : JobsInv st := by
    induction h with
    | refl =>
      constructor
      · intro j hj
        exact absurd hj (by simp [JobRuntimeState.init])
      · simp [JobRuntimeState.init, jobIds]
    | tail hsteps hstep ih => exact jstep_preserves_inv hstep ih
  exact countRunning_le_one_of_inv st hinv

/-- Witness for `single_running_invariant` at a concrete reachable state (the
initial state, reachable by the empty trace). -/
theorem single_running_invariant_witness :
    countRunning (JobRuntimeState.init.jobs) ≤ 1 :=
  single_running_invariant JobRuntimeState.init Relation.ReflTransGen.refl

/-- C4: manual retry semantics of `retry_job` (main.rs:5099-5141). With
`force = false` it errors unless the status is `Failed` or `NeedsRetry`; if
`retry_at` parses and is still in the future it fails with the retry-window
error (returning before any mutation, so the job is unchanged); on success the
job becomes `Queued` with `last_error`, `retry_after_seconds` and `retry_at`
cleared while `auto_retry_attempt_count` keeps its value; `force = true`
bypasses both the status gate and the window. -/
theorem retry_job_semantics (st : JobRuntimeState) (jobId : String) (force : Bool)
    (nowMs : Nat) (nowStr : String) (idx : Nat) (j : JobRecord)
    (hfind : st.jobs.findIdx? (fun k => k.job_id == jobId) = some idx)
    (hj : st.jobs[idx]? = some j) :
    (force = false → j.status ≠ JobStatus.failed → j.status ≠ JobStatus.needsRetry →
      retry_job st jobId force nowMs nowStr = Except.error "job is not retryable") ∧
    (∀ rs ts, force = false →
      (j.status = JobStatus.failed ∨ j.status = JobStatus.needsRetry) →
      j.retry_at = some rs → parseU128 rs = some ts → nowMs < ts →
      retry_job st jobId force nowMs nowStr =
        Except.error "retry window has not started yet; pass force=true to override") ∧
    ((j.status = JobStatus.failed ∨ j.status = JobStatus.needsRetry ∨ force = true) →
      (force = true ∨ retryWindowBlocked j nowMs = false) →
      retry_job st jobId force nowMs nowStr =
        Except.ok ({ st with jobs := st.jobs.set idx { j with
              status := JobStatus.queued
              updated_at := nowStr
              last_error := none
              retry_after_seconds := none
              retry_at := none } },
          { j with
              status := JobStatus.queued
              updated_at := nowStr
              last_error := none
              retry_after_seconds := none
              retry_at := none }) ∧
      ({ j with
          status := JobStatus.queued
          updated_at := nowStr
          last_error := none
          retry_after_seconds := none
          retry_at := none }).auto_retry_attempt_count = j.auto_retry_attempt_count) := by
  unfold retry_job
  rw [hfind]
  dsimp only
  rw [hj]
  dsimp only
  refine ⟨?_, ?_, ?_⟩
  · intro hf hnf hnn
    rw [if_pos]
    rintro (h | h | h)
    · exact hnf h
    · exact hnn h
    · rw [hf] at h; exact Bool.noConfusion h
  · intro rs ts hf hst hra hp hlt
    rw [if_neg, if_pos]
    · refine ⟨hf, ?_⟩
      unfold retryWindowBlocked
      rw [hra]
      dsimp only
      rw [hp]
      dsimp only
      exact decide_eq_true hlt
    · intro hc
      exact hc (hst.elim Or.inl (fun h => Or.inr (Or.inl h)))
  · intro hst hwin
    rw [if_neg, if_neg]
    · exact ⟨rfl, rfl⟩
    · rintro ⟨hf, hwb⟩
      rcases hwin with hwin | hwin
      · rw [hwin] at hf; exact Bool.noConfusion hf
      · rw [hwin] at hwb; exact Bool.noConfusion hwb
    · intro hc
      exact hc hst

/-- Witness for `retry_job_semantics`: retrying a concrete `Failed` job with
no retry window succeeds and resets it to `Queued`. -/
theorem retry_job_semantics_witness :
    retry_job failedRetryState "job_b" false 5 "9" =
      Except.ok ({ failedRetryState with jobs := failedRetryState.jobs.set 0 { failedJob with
            status := JobStatus.queued
            updated_at := "9"
            last_error := none
            retry_after_seconds := none
            retry_at := none } },
        { failedJob with
            status := JobStatus.queued
            updated_at := "9"
            last_error := none
            retry_after_seconds := none
            retry_at := none }) ∧
    ({ failedJob with
        status := JobStatus.queued
        updated_at := "9"
        last_error := none
        retry_after_seconds := none
        retry_at := none }).auto_retry_attempt_count = failedJob.auto_retry_attempt_count :=
  (retry_job_semantics failedRetryState "job_b" false 5 "9" 0 failedJob (by rfl) rfl).2.2
    (Or.inl rfl) (Or.inr rfl)

/-- C9 counterexample: cancelling the already-`Succeeded` job `terminalJob`
(whose `updated_at` is `"1"`) at time `"2"` returns success but rewrites
`updated_at` to `"2"` and re-persists, so the record is not left entirely
unchanged as claimed. -/
theorem cancel_terminal_updates_timestamp_counterexample :
    cancel_job terminalCancelState "job_a" "2" =
      Except.ok ({ terminalCancelState with
          jobs := [{ terminalJob with updated_at := "2" }] },
        { terminalJob with updated_at := "2" }) ∧
    ({ terminalJob with updated_at := "2" }).updated_at ≠ terminalJob.updated_at := by
  constructor
  · rfl
  · intro h
    exact absurd h (by decide)

/-- C9 (amended): cancelling a job whose status is already terminal
(`Succeeded`, `Failed`, `NeedsRetry` or `Canceled`) returns success rather
than an error, leaves the status and every other field except `updated_at`
unchanged, and refreshes `updated_at` to the current time (main.rs:5086-5089);
the jobs document is then re-persisted with only that timestamp changed. -/
theorem cancel_terminal_job_refreshes_timestamp_only (st : JobRuntimeState)
    (jobId nowStr : String) (idx : Nat) (j : JobRecord)
    (hfind : st.jobs.findIdx? (fun k => k.job_id == jobId) = some idx)
    (hj : st.jobs[idx]? = some j)
    (hterm : j.status = JobStatus.succeeded ∨ j.status = JobStatus.failed ∨
      j.status = JobStatus.needsRetry ∨ j.status = JobStatus.canceled) :
    cancel_job st jobId nowStr =
      Except.ok ({ st with jobs := st.jobs.set idx { j with updated_at := nowStr } },
        { j with updated_at := nowStr }) := by
  unfold cancel_job
  rw [hfind]
  dsimp only
  rw [hj]
  dsimp only
  rcases hterm with h | h | h | h <;> simp only [h]

/-- Witness for `cancel_terminal_job_refreshes_timestamp_only` at the concrete
terminal store. -/
theorem cancel_terminal_job_refreshes_timestamp_only_witness :
    cancel_job terminalCancelState "job_a" "7" =
      Except.ok ({ terminalCancelState with
          jobs := terminalCancelState.jobs.set 0 { terminalJob with updated_at := "7" } },
        { terminalJob with updated_at := "7" }) :=
  cancel_terminal_job_refreshes_timestamp_only terminalCancelState "job_a" "7" 0 terminalJob
    (by rfl) rfl (Or.inl rfl)

/-- C8: unsupported-schema read-only protection. For every persisted document
whose `schema_version` parses to a value greater than the supported version 1,
`load_with_migration` fails with the read-only error and every save fails at
`ensure_schema_writable` with the refusing-to-modify error, leaving the file
contents untouched (the atomic write is never reached); a document with no
`schema_version` field is treated as version 1 and decodes normally (with the
current version stamped in). This covers jobs, pipelines and settings alike:
all three load through `load_with_migration` and save through
`ensure_schema_writable` first (main.rs:1810, 1818, 1832, 1841, 1857, 1870). -/
theorem schema_unsupported_read_only {α : Type} (doc : Json) (subsystem : String)
    (decode : Json → Except String α) (payload : Json) (v : Nat)
    (hv : parse_schema_version doc = Except.ok v) (hgt : 1 < v) :
    load_with_migration doc subsystem decode =
      Except.error
        (subsystem_display_name subsystem ++ " has unsupported schema_version=" ++
          toString v ++ " (supported=" ++ toString SCHEMA_VERSION ++
          "); subsystem is read-only") ∧
    save_doc (some doc) subsystem payload =
      Except.error
        (subsystem_display_name subsystem ++ " has unsupported schema_version=" ++
          toString v ++ " (supported=" ++ toString SCHEMA_VERSION ++
          "); refusing to modify") ∧
    fileAfterSave (some doc) subsystem payload = some doc ∧
    (∀ doc2 : Json, doc2.isObj = true → doc2.get "schema_version" = none →
      load_with_migration doc2 subsystem decode =
        decode (doc2.insertKey "schema_version" (Json.jnum (SCHEMA_VERSION : Int)))) := by
  have hobj : doc.isObj = true := by
    cases doc
    case jobj fields => rfl
    all_goals
      exfalso
      simp [parse_schema_version, Json.get] at hv
      omega
  have hvlt : SCHEMA_VERSION < v := hgt
  have hsave : save_doc (some doc) subsystem payload =
      Except.error
        (subsystem_display_name subsystem ++ " has unsupported schema_version=" ++
          toString v ++ " (supported=" ++ toString SCHEMA_VERSION ++
          "); refusing to modify") := by
    unfold save_doc ensure_schema_writable
    dsimp only
    rw [hv]
    dsimp only
    rw [if_pos hvlt]
  refine ⟨?_, hsave, ?_, ?_⟩
  · unfold load_with_migration
    rw [hobj, if_neg (show ¬(true = false) from fun h => Bool.noConfusion h), hv]
    dsimp only
    rw [if_pos hvlt]
  · unfold fileAfterSave
    rw [hsave]
  · intro doc2 hobj2 hget
    have hv2 : parse_schema_version doc2 = Except.ok 1 := by
      unfold parse_schema_version
      rw [hget]
      rfl
    unfold load_with_migration
    rw [hobj2, if_neg (show ¬(true = false) from fun h => Bool.noConfusion h), hv2]
    dsimp only
    rw [if_neg (by decide)]
    rfl

/-- Witness for `schema_unsupported_read_only` at a concrete version-2 jobs
document (and a concrete version-less document for the legacy branch). -/
theorem schema_unsupported_read_only_witness :
    load_with_migration (Json.jobj [("schema_version", Json.jnum 2)]) "jobs" Except.ok =
      Except.error
        (subsystem_display_name "jobs" ++ " has unsupported schema_version=" ++
          toString 2 ++ " (supported=" ++ toString SCHEMA_VERSION ++
          "); subsystem is read-only") ∧
    save_doc (some (Json.jobj [("schema_version", Json.jnum 2)])) "jobs" Json.null =
      Except.error
        (subsystem_display_name "jobs" ++ " has unsupported schema_version=" ++
          toString 2 ++ " (supported=" ++ toString SCHEMA_VERSION ++
          "); refusing to modify") ∧
    fileAfterSave (some (Json.jobj [("schema_version", Json.jnum 2)])) "jobs" Json.null =
      some (Json.jobj [("schema_version", Json.jnum 2)]) ∧
    (∀ doc2 : Json, doc2.isObj = true → doc2.get "schema_version" = none →
      load_with_migration doc2 "jobs" Except.ok =
        Except.ok (doc2.insertKey "schema_version" (Json.jnum (SCHEMA_VERSION : Int)))) :=
  schema_unsupported_read_only (Json.jobj [("schema_version", Json.jnum 2)]) "jobs"
    Except.ok Json.null 2 (by rfl) (by norm_num)

/-- C10 counterexample: the literal claim — valid settings (all four knobs at
least 1) always persist and are returned — fails when the on-disk settings
document carries a newer schema version: `save_settings` refuses to modify it
and `update_settings` errors instead of returning the settings. -/
theorem update_settings_schema_locked_counterexample :
    (DesktopSettings.default.auto_retry_max_per_job ≠ 0 ∧
     DesktopSettings.default.auto_retry_max_per_pipeline ≠ 0 ∧
     DesktopSettings.default.auto_retry_base_delay_seconds ≠ 0 ∧
     DesktopSettings.default.auto_retry_max_delay_seconds ≠ 0) ∧
    update_settings DesktopSettings.default
        (some (Json.jobj [("schema_version", Json.jnum 2)])) =
      Except.error
        ("settings.json has unsupported schema_version=" ++ toString 2 ++
          " (supported=" ++ toString SCHEMA_VERSION ++ "); refusing to modify") := by
  refine ⟨⟨by decide, by decide, by decide, by decide⟩, ?_⟩
  rfl

/-- C10 (amended): `update_settings` rejects with an error any settings record
in which one of the four auto-retry knobs is zero, leaving the persisted
settings unchanged; when all four values are at least 1 **and** the on-disk
settings document is schema-writable, it persists and returns exactly the
given settings. -/
theorem update_settings_validates_and_persists (settings : DesktopSettings)
    (file : Option Json) :
    ((settings.auto_retry_max_per_job = 0 ∨ settings.auto_retry_max_per_pipeline = 0 ∨
      settings.auto_retry_base_delay_seconds = 0 ∨
      settings.auto_retry_max_delay_seconds = 0) →
      (∃ msg, update_settings settings file = Except.error msg) ∧
      settingsFileAfterUpdate settings file = file) ∧
    (settings.auto_retry_max_per_job ≠ 0 → settings.auto_retry_max_per_pipeline ≠ 0 →
      settings.auto_retry_base_delay_seconds ≠ 0 →
      settings.auto_retry_max_delay_seconds ≠ 0 →
      ensure_schema_writable file "settings" = Except.ok () →
      update_settings settings file =
        Except.ok (settings,
          Json.jobj [("schema_version", Json.jnum (SCHEMA_VERSION : Int)),
            ("settings", settingsToJson settings)])) := by
  constructor
  · intro hzero
    have hmsg : ∃ msg, update_settings settings file = Except.error msg := by
      by_cases h1 : settings.auto_retry_max_per_job = 0
      · exact ⟨_, by unfold update_settings; rw [if_pos h1]⟩
      by_cases h2 : settings.auto_retry_max_per_pipeline = 0
      · exact ⟨_, by unfold update_settings; rw [if_neg h1, if_pos h2]⟩
      by_cases h3 : settings.auto_retry_base_delay_seconds = 0
      · exact ⟨_, by unfold update_settings; rw [if_neg h1, if_neg h2, if_pos h3]⟩
      by_cases h4 : settings.auto_retry_max_delay_seconds = 0
      · exact ⟨_, by unfold update_settings; rw [if_neg h1, if_neg h2, if_neg h3, if_pos h4]⟩
      rcases hzero with h | h | h | h <;> contradiction
    obtain ⟨msg, hmsgEq⟩ := hmsg
    refine ⟨⟨msg, hmsgEq⟩, ?_⟩
    unfold settingsFileAfterUpdate
    rw [hmsgEq]
  · intro h1 h2 h3 h4 hw
    unfold update_settings save_settings save_doc
    rw [if_neg h1, if_neg h2, if_neg h3, if_neg h4, hw]

/-- Witness for `update_settings_validates_and_persists`: the default settings
(all knobs nonzero) persist against an absent settings file. -/
theorem update_settings_validates_and_persists_witness :
    update_settings DesktopSettings.default none =
      Except.ok (DesktopSettings.default,
        Json.jobj [("schema_version", Json.jnum (SCHEMA_VERSION : Int)),
          ("settings", settingsToJson DesktopSettings.default)]) :=
  (update_settings_validates_and_persists DesktopSettings.default none).2
    (by decide) (by decide) (by decide) (by decide) rfl

lemma reconAdvanceSpec_same_position {p p' : PipelineRecord}
    (hsteps : p'.steps = p.steps)
    (hidx : p'.current_step_index = p.current_step_index) :
    ReconAdvanceSpec p p' := by
  refine ⟨le_of_eq hidx.symm, by rw [hsteps], Or.inr hidx, fun k _ => by rw [hsteps], ?_,
    fun k _ => by rw [hsteps]⟩
  intro k hk1 hk2
  rw [hidx] at hk2
  exact absurd (lt_of_le_of_lt hk1 hk2) (lt_irrefl _)

lemma reconAdvanceSpec_set_current {p p' : PipelineRecord} (st2 : PipelineStep)
    (hsteps : p'.steps = p.steps.set p.current_step_index st2)
    (hidx : p'.current_step_index = p.current_step_index) :
    ReconAdvanceSpec p p' := by
  refine ⟨le_of_eq hidx.symm, by rw [hsteps, List.length_set], Or.inr hidx, ?_, ?_, ?_⟩
  · intro k hk
    rw [hsteps, List.getElem?_set_ne (Nat.ne_of_gt hk)]
  · intro k hk1 hk2
    rw [hidx] at hk2
    exact absurd (lt_of_le_of_lt hk1 hk2) (lt_irrefl _)
  · intro k hk
    rw [hidx] at hk
    rw [hsteps, List.getElem?_set_ne (Nat.ne_of_lt hk)]

lemma reconLoop_advanceSpec (env : ReconEnv) (snapshot : List JobRecord)
    (onlyJobId : Option String) (fuel : Nat) :
    ∀ (p : PipelineRecord) (acc : List JobRecord) (ctr : Nat)
      (p' : PipelineRecord) (new' : List JobRecord) (ctr' : Nat),
      reconLoop env snapshot onlyJobId fuel p acc ctr = Except.ok (p', new', ctr') →
      ReconAdvanceSpec p p' := by
  induction fuel with
  | zero =>
    intro p acc ctr p' new' ctr' h
    exact Except.noConfusion h
  | succ fuel ih =>
    intro p acc ctr p' new' ctr' h
    simp only [reconLoop] at h
    by_cases hlen : p.steps.length ≤ p.current_step_index
    · rw [if_pos hlen] at h
      simp only [Except.ok.injEq, Prod.mk.injEq] at h
      obtain ⟨hp', -, -⟩ := h
      exact reconAdvanceSpec_same_position (by rw [← hp']) (by rw [← hp'])
    · rw [if_neg hlen] at h
      cases hstep : p.steps[p.current_step_index]? with
      | none => rw [hstep] at h; exact Except.noConfusion h
      | some step =>
        rw [hstep] at h
        dsimp only at h
        by_cases hterm : is_pipeline_step_terminal step.status = true
        · rw [if_pos hterm] at h
          by_cases hsucc : step.status = PipelineStepStatus.succeeded
          · rw [if_pos hsucc] at h
            by_cases hlast : p.steps.length ≤ p.current_step_index + 1
            · rw [if_pos hlast] at h
              simp only [Except.ok.injEq, Prod.mk.injEq] at h
              obtain ⟨hp', -, -⟩ := h
              exact reconAdvanceSpec_same_position (by rw [← hp']) (by rw [← hp'])
            · rw [if_neg hlast] at h
              obtain ⟨s1, s2, s3, s4, s5, s6⟩ := ih _ _ _ _ _ _ h
              refine ⟨le_trans (Nat.le_succ _) s1, s2, ?_, ?_, ?_, s6⟩
              · left
                rcases s3 with h3 | h3
                · exact h3
                · have h3' : p'.current_step_index = p.current_step_index + 1 := h3
                  omega
              · intro k hk
                exact s4 k (lt_trans hk (Nat.lt_succ_self _))
              · intro k hk1 hk2
                by_cases hkeq : k = p.current_step_index
                · subst hkeq
                  have hpres := s4 _ (Nat.lt_succ_self p.current_step_index)
                  exact ⟨step, by rw [hpres]; exact hstep, hsucc⟩
                · exact s5 k (show p.current_step_index + 1 ≤ k by omega) hk2
          · rw [if_neg hsucc] at h
            simp only [Except.ok.injEq, Prod.mk.injEq] at h
            obtain ⟨hp', -, -⟩ := h
            exact reconAdvanceSpec_same_position (by rw [← hp']) (by rw [← hp'])
        · rw [if_neg hterm] at h
          by_cases hpend : step.status = PipelineStepStatus.pending
          · rw [if_pos hpend] at h
            by_cases hok : env.enqueueOk step.template_id p.canonical_id step.params = true
            · rw [if_pos hok] at h
              simp only [Except.ok.injEq, Prod.mk.injEq] at h
              obtain ⟨hp', -, -⟩ := h
              exact reconAdvanceSpec_set_current _ (by rw [← hp']) (by rw [← hp'])
            · rw [if_neg hok] at h
              exact Except.noConfusion h
          · rw [if_neg hpend] at h
            cases hjid : step.job_id with
            | none =>
              rw [hjid] at h
              obtain ⟨s1, s2, s3, s4, s5, s6⟩ := ih _ _ _ _ _ _ h
              have hlenset : ∀ st2 : PipelineStep,
                  (p.steps.set p.current_step_index st2).length = p.steps.length :=
                fun st2 => List.length_set _ _ _
              refine ⟨s1, by rw [s2]; exact hlenset _, ?_, ?_, s5, ?_⟩
              · rcases s3 with h3 | h3
                · left; exact lt_of_lt_of_eq h3 (hlenset _)
                · right; exact h3
              · intro k hk
                rw [s4 k hk]
                exact List.getElem?_set_ne (Nat.ne_of_gt hk)
              · intro k hk
                rw [s6 k hk]
                exact List.getElem?_set_ne
                  (Nat.ne_of_lt (lt_of_le_of_lt s1 hk))
            | some stepJobId =>
              rw [hjid] at h
              dsimp only at h
              by_cases hmatch : onlyIdMismatch onlyJobId stepJobId = true
              · rw [if_pos hmatch] at h
                simp only [Except.ok.injEq, Prod.mk.injEq] at h
                obtain ⟨hp', -, -⟩ := h
                exact reconAdvanceSpec_same_position (by rw [← hp']) (by rw [← hp'])
              · rw [if_neg hmatch] at h
                cases hfind : snapshot.find? (fun j => j.job_id == stepJobId) with
                | none =>
                  rw [hfind] at h
                  dsimp only at h
                  simp only [Except.ok.injEq, Prod.mk.injEq] at h
                  obtain ⟨hp', -, -⟩ := h
                  exact reconAdvanceSpec_same_position (by rw [← hp']) (by rw [← hp'])
                | some job =>
                  rw [hfind] at h
                  dsimp only at h
                  by_cases hmap : pipeline_step_status_from_job job =
                      PipelineStepStatus.running
                  · rw [if_pos hmap] at h
                    simp only [Except.ok.injEq, Prod.mk.injEq] at h
                    obtain ⟨hp', -, -⟩ := h
                    exact reconAdvanceSpec_same_position (by rw [← hp']) (by rw [← hp'])
                  · rw [if_neg hmap] at h
                    obtain ⟨s1, s2, s3, s4, s5, s6⟩ := ih _ _ _ _ _ _ h
                    have hlenset : ∀ st2 : PipelineStep,
                        (p.steps.set p.current_step_index st2).length = p.steps.length :=
                      fun st2 => List.length_set _ _ _
                    refine ⟨s1, by rw [s2]; exact hlenset _, ?_, ?_, s5, ?_⟩
                    · rcases s3 with h3 | h3
                      · left; exact lt_of_lt_of_eq h3 (hlenset _)
                      · right; exact h3
                    · intro k hk
                      rw [s4 k hk]
                      exact List.getElem?_set_ne (Nat.ne_of_gt hk)
                    · intro k hk
                      rw [s6 k hk]
                      exact List.getElem?_set_ne
                        (Nat.ne_of_lt (lt_of_le_of_lt s1 hk))

/-- C5: a pipeline never auto-advances past a failed or retry-pending step.
During reconciliation of a `Running` pipeline, when the current step's status
is terminal and not `Succeeded`, the pass stops with `current_step_index`
unchanged (and the steps untouched) and sets the pipeline status to the
matching terminal state (`NeedsRetry` → `NeedsRetry`, `Canceled` → `Canceled`,
else `Failed`); and in every successful pass, each index the current position
moved past holds a `Succeeded` step — the index advances only across
`Succeeded` steps. -/
theorem pipeline_never_advances_past_failure (env : ReconEnv)
    (snapshot : List JobRecord) (onlyJobId : Option String) (p : PipelineRecord)
    (acc : List JobRecord) (ctr : Nat) :
    (∀ step, p.status = PipelineStatus.running →
      p.steps[p.current_step_index]? = some step →
      is_pipeline_step_terminal step.status = true →
      step.status ≠ PipelineStepStatus.succeeded →
      reconcileOnePipeline env snapshot onlyJobId p acc ctr =
        Except.ok ({ p with
          status := stepTerminalToPipeline step.status
          updated_at := env.nowStr }, acc, ctr)) ∧
    (∀ p' new' ctr', reconcileOnePipeline env snapshot onlyJobId p acc ctr =
        Except.ok (p', new', ctr') →
      ∀ k, p.current_step_index ≤ k → k < p'.current_step_index →
        ∃ st, p'.steps[k]? = some st ∧ st.status = PipelineStepStatus.succeeded) := by
  constructor
  · intro step hrun hstep hterm hns
    have hidx : p.current_step_index < p.steps.length := by
      by_contra hge
      rw [List.getElem?_eq_none (Nat.le_of_not_lt hge)] at hstep
      exact Option.noConfusion hstep
    have hne : p.steps.isEmpty = false := by
      cases hsteps : p.steps with
      | nil => rw [hsteps] at hidx; exact absurd hidx (by simp)
      | cons a l => rfl
    unfold reconcileOnePipeline
    rw [hne]
    rw [if_neg (show ¬(false = true) from fun hc => Bool.noConfusion hc)]
    rw [if_neg (show ¬(p.status ≠ PipelineStatus.running) from fun hc => hc hrun)]
    dsimp only
    rw [if_neg (Nat.not_le_of_lt hidx)]
    rw [show 2 * p.steps.length + 2 = (2 * p.steps.length + 1) + 1 from rfl]
    simp only [reconLoop]
    rw [if_neg (Nat.not_le_of_lt hidx), hstep]
    dsimp only
    rw [if_pos hterm, if_neg hns]
  · intro p' new' ctr' h k hk1 hk2
    unfold reconcileOnePipeline at h
    by_cases hempty : p.steps.isEmpty = true
    · rw [if_pos hempty] at h
      by_cases hst : p.status ≠ PipelineStatus.succeeded
      · rw [if_pos hst] at h
        simp only [Except.ok.injEq, Prod.mk.injEq] at h
        obtain ⟨hp', -, -⟩ := h
        have hpidx : p'.current_step_index = p.current_step_index := by rw [← hp']
        rw [hpidx] at hk2
        exact absurd (lt_of_le_of_lt hk1 hk2) (lt_irrefl _)
      · rw [if_neg hst] at h
        simp only [Except.ok.injEq, Prod.mk.injEq] at h
        obtain ⟨hp', -, -⟩ := h
        have hpidx : p'.current_step_index = p.current_step_index := by rw [← hp']
        rw [hpidx] at hk2
        exact absurd (lt_of_le_of_lt hk1 hk2) (lt_irrefl _)
    · rw [if_neg hempty] at h
      by_cases hrun : p.status ≠ PipelineStatus.running
      · rw [if_pos hrun] at h
        simp only [Except.ok.injEq, Prod.mk.injEq] at h
        obtain ⟨hp', -, -⟩ := h
        have hpidx : p'.current_step_index = p.current_step_index := by rw [← hp']
        rw [hpidx] at hk2
        exact absurd (lt_of_le_of_lt hk1 hk2) (lt_irrefl _)
      · rw [if_neg hrun] at h
        dsimp only at h
        by_cases hclamp : p.steps.length ≤ p.current_step_index
        · rw [if_pos hclamp] at h
          obtain ⟨-, -, s3, -, -, -⟩ :=
            reconLoop_advanceSpec env snapshot onlyJobId _ _ _ _ _ _ _ h
          exfalso
          rcases s3 with h3 | h3
          · have h3' : p'.current_step_index < p.steps.length := h3
            omega
          · have h3' : p'.current_step_index = p.steps.length - 1 := h3
            have hlen0 : p.steps.length ≠ 0 := by
              intro hz
              rw [List.isEmpty_iff_length_eq_zero] at hempty
              exact hempty hz
            omega
        · rw [if_neg hclamp] at h
          obtain ⟨-, -, -, -, s5, -⟩ :=
            reconLoop_advanceSpec env snapshot onlyJobId _ _ _ _ _ _ _ h
          exact s5 k hk1 hk2

/-- Witness for `pipeline_never_advances_past_failure`: reconciling the
concrete running pipeline whose single step has failed stops without advancing
and marks the pipeline `Failed`. -/
theorem pipeline_never_advances_past_failure_witness :
    reconcileOnePipeline trivialEnv [] none failedPipeline [] 0 =
      Except.ok ({ failedPipeline with
        status := stepTerminalToPipeline failedStep.status
        updated_at := trivialEnv.nowStr }, [], 0) :=
  (pipeline_never_advances_past_failure trivialEnv [] none failedPipeline [] 0).1
    failedStep rfl rfl rfl (by decide)

lemma pipelineInvP_of_advanceSpec {p p' : PipelineRecord}
    (hspec : ReconAdvanceSpec p p') (hinv : PipelineInvP p) : PipelineInvP p' := by
  obtain ⟨s1, s2, s3, s4, s5, s6⟩ := hspec
  obtain ⟨h1, h2, h3⟩ := hinv
  refine ⟨?_, ?_, ?_⟩
  · rw [s2]
    rcases s3 with h | h
    · exact h
    · rw [h]; exact h1
  · intro k hk
    by_cases hki : k < p.current_step_index
    · rw [s4 k hki]
      exact h2 k hki
    · obtain ⟨st, hst, hsts⟩ := s5 k (Nat.le_of_not_lt hki) hk
      rw [hst]
      simp [hsts]
  · intro k hklen hk
    rw [s6 k hk]
    exact h3 k (by rw [← s2]; exact hklen) (lt_of_le_of_lt s1 hk)

lemma reconcileOnePipeline_preserves_inv {env : ReconEnv} {snapshot : List JobRecord}
    {onlyJobId : Option String} {p : PipelineRecord} {acc : List JobRecord} {ctr : Nat}
    {p' : PipelineRecord} {new' : List JobRecord} {ctr' : Nat}
    (h : reconcileOnePipeline env snapshot onlyJobId p acc ctr = Except.ok (p', new', ctr'))
    (hinv : PipelineInvP p) : PipelineInvP p' := by
  obtain ⟨h1, h2, h3⟩ := hinv
  unfold reconcileOnePipeline at h
  by_cases hempty : p.steps.isEmpty = true
  · exfalso
    rw [List.isEmpty_iff_length_eq_zero] at hempty
    omega
  · rw [if_neg hempty] at h
    by_cases hrun : p.status ≠ PipelineStatus.running
    · rw [if_pos hrun] at h
      simp only [Except.ok.injEq, Prod.mk.injEq] at h
      obtain ⟨hp', -, -⟩ := h
      rw [← hp']
      exact ⟨h1, h2, h3⟩
    · rw [if_neg hrun] at h
      dsimp only at h
      rw [if_neg (Nat.not_le_of_lt h1)] at h
      exact pipelineInvP_of_advanceSpec
        (reconLoop_advanceSpec env snapshot onlyJobId _ _ _ _ _ _ _ h) ⟨h1, h2, h3⟩

lemma reconcileAll_mem {env : ReconEnv} {snapshot : List JobRecord}
    {onlyJobId : Option String} :
    ∀ (ps : List PipelineRecord) (ctr : Nat) (ps' : List PipelineRecord)
      (new' : List JobRecord) (ctr' : Nat),
      reconcileAll env snapshot onlyJobId ps ctr = Except.ok (ps', new', ctr') →
      ∀ p' ∈ ps', ∃ p ∈ ps, ∃ acc ctr0 new0 ctr1,
        reconcileOnePipeline env snapshot onlyJobId p acc ctr0 =
          Except.ok (p', new0, ctr1) := by
  intro ps
  induction ps with
  | nil =>
    intro ctr ps' new' ctr' h p' hp'
    simp only [reconcileAll, Except.ok.injEq, Prod.mk.injEq] at h
    obtain ⟨hps', -, -⟩ := h
    rw [← hps'] at hp'
    exact absurd hp' (List.not_mem_nil p')
  | cons p rest ih =>
    intro ctr ps' new' ctr' h p' hp'
    simp only [reconcileAll] at h
    cases hone : reconcileOnePipeline env snapshot onlyJobId p [] ctr with
    | error e => rw [hone] at h; exact Except.noConfusion h
    | ok res =>
      rw [hone] at h
      obtain ⟨p1, new1, ctr1⟩ := res
      dsimp only at h
      cases hrest : reconcileAll env snapshot onlyJobId rest ctr1 with
      | error e => rw [hrest] at h; exact Except.noConfusion h
      | ok res2 =>
        rw [hrest] at h
        obtain ⟨rest1, new2, ctr2⟩ := res2
        dsimp only at h
        simp only [Except.ok.injEq, Prod.mk.injEq] at h
        obtain ⟨hps', -, -⟩ := h
        rw [← hps'] at hp'
        rcases List.mem_cons.mp hp' with hp' | hp'
        · subst hp'
          exact ⟨p, List.mem_cons_self p rest, [], ctr, new1, ctr1, hone⟩
        · obtain ⟨q, hq, acc, ctr0, new0, ctrx, hrec⟩ := ih ctr1 rest1 new2 ctr2 hrest p' hp'
          exact ⟨q, List.mem_cons_of_mem p hq, acc, ctr0, new0, ctrx, hrec⟩

lemma pstep_preserves_inv {ps ps' : List PipelineRecord} (h : PStep ps ps')
    (hinv : ∀ p ∈ ps, PipelineInvP p) : ∀ p ∈ ps', PipelineInvP p := by
  cases h with
  | create pipelineId canonicalId name nowStr stepsIn hne =>
    intro q hq
    rcases List.mem_append.mp hq with hq | hq
    · exact hinv q hq
    · simp only [List.mem_singleton] at hq
      subst hq
      have hlen : 0 < stepsIn.length := List.length_pos.mpr hne
      refine ⟨by simpa [create_pipeline_record] using hlen, ?_, ?_⟩
      · intro k hk
        exact absurd hk (by simp [create_pipeline_record])
      · intro k hklen hk
        simp only [create_pipeline_record, List.length_map] at hklen
        simp only [create_pipeline_record, List.getElem?_map,
          List.getElem?_eq_getElem hklen]
        rfl
  | reconcile ps' env snapshot onlyJobId ctr new' ctr' h =>
    intro q hq
    obtain ⟨p, hp, acc, ctr0, new0, ctr1, hrec⟩ :=
      reconcileAll_mem ps ctr ps' new' ctr' h q hq
    exact reconcileOnePipeline_preserves_inv hrec (hinv p hp)
  | cancelPipeline ps' pipelineId nowStr h =>
    unfold cancel_pipeline_core at h
    cases hidx : ps.findIdx? (fun p => p.pipeline_id == pipelineId) with
    | none => rw [hidx] at h; exact Except.noConfusion h
    | some idx =>
      rw [hidx] at h
      dsimp only at h
      cases hp : ps[idx]? with
      | none => rw [hp] at h; exact Except.noConfusion h
      | some p =>
        rw [hp] at h
        dsimp only at h
        simp only [Except.ok.injEq] at h
        subst h
        intro q hq
        rcases List.mem_or_eq_of_mem_set hq with hq | hq
        · exact hinv q hq
        · subst hq
          obtain ⟨h1, h2, h3⟩ := hinv p (mem_of_getElem?_eq_some hp)
          cases hstep : p.steps[p.current_step_index]? with
          | none =>
            rw [List.getElem?_eq_none_iff] at hstep
            omega
          | some step =>
            dsimp only
            by_cases hterm : is_pipeline_step_terminal step.status = true
            · rw [if_pos hterm]
              exact ⟨h1, h2, h3⟩
            · rw [if_neg hterm]
              refine ⟨by simpa using h1, ?_, ?_⟩
              · intro k hk
                have := h2 k hk
                simpa [List.getElem?_set_ne (Nat.ne_of_gt hk)] using this
              · intro k hklen hk
                simp only [List.length_set] at hklen
                have := h3 k hklen hk
                simpa [List.getElem?_set_ne (Nat.ne_of_lt hk)] using this
  | retryStep ps' pipelineId stepId nowStr h =>
    unfold retry_pipeline_step_core at h
    cases hidx : ps.findIdx? (fun p => p.pipeline_id == pipelineId) with
    | none => rw [hidx] at h; exact Except.noConfusion h
    | some pidx =>
      rw [hidx] at h
      dsimp only at h
      cases hp : ps[pidx]? with
      | none => rw [hp] at h; exact Except.noConfusion h
      | some p =>
        rw [hp] at h
        dsimp only at h
        cases hsidx : p.steps.findIdx? (fun s => s.step_id == stepId) with
        | none => rw [hsidx] at h; exact Except.noConfusion h
        | some sidx =>
          rw [hsidx] at h
          dsimp only at h
          cases hstep : p.steps[sidx]? with
          | none => rw [hstep] at h; exact Except.noConfusion h
          | some step =>
            rw [hstep] at h
            dsimp only at h
            by_cases hgate : ¬(step.status = PipelineStepStatus.failed ∨
                step.status = PipelineStepStatus.needsRetry ∨
                step.status = PipelineStepStatus.canceled ∨ false = true)
            · rw [if_pos hgate] at h
              exact Except.noConfusion h
            · rw [if_neg hgate] at h
              simp only [Except.ok.injEq] at h
              subst h
              obtain ⟨h1, h2, h3⟩ := hinv p (mem_of_getElem?_eq_some hp)
              have hslt : sidx < p.steps.length := by
                by_contra hge
                rw [List.getElem?_eq_none (Nat.le_of_not_lt hge)] at hstep
                exact Option.noConfusion hstep
              have hretryable : step.status = PipelineStepStatus.failed ∨
                  step.status = PipelineStepStatus.needsRetry ∨
                  step.status = PipelineStepStatus.canceled := by
                rcases not_not.mp hgate with hx | hx | hx | hx
                · exact Or.inl hx
                · exact Or.inr (Or.inl hx)
                · exact Or.inr (Or.inr hx)
                · exact absurd hx (by simp)
              have hsidx_eq : sidx = p.current_step_index := by
                rcases Nat.lt_trichotomy sidx p.current_step_index with hlt | heq | hgt
                · exfalso
                  have := h2 sidx hlt
                  rw [hstep] at this
                  simp only [Option.map_some'] at this
                  have hst : step.status = PipelineStepStatus.succeeded :=
                    Option.some.inj this
                  rcases hretryable with hx | hx | hx <;> rw [hst] at hx <;>
                    exact PipelineStepStatus.noConfusion hx
                · exact heq
                · exfalso
                  have := h3 sidx hslt hgt
                  rw [hstep] at this
                  simp only [Option.map_some'] at this
                  have hst : step.status = PipelineStepStatus.pending :=
                    Option.some.inj this
                  rcases hretryable with hx | hx | hx <;> rw [hst] at hx <;>
                    exact PipelineStepStatus.noConfusion hx
              intro q hq
              rcases List.mem_or_eq_of_mem_set hq with hq | hq
              · exact hinv q hq
              · subst hq
                refine ⟨?_, ?_, ?_⟩
                · show sidx < (List.mapIdx (fun i s =>
                    if sidx ≤ i then resetPipelineStep s else s) p.steps).length
                  rw [List.length_mapIdx]
                  omega
                · intro k hk
                  have hkk : k < sidx := hk
                  show Option.map PipelineStep.status ((List.mapIdx (fun i s =>
                    if sidx ≤ i then resetPipelineStep s else s) p.steps)[k]?) =
                    some PipelineStepStatus.succeeded
                  rw [List.getElem?_mapIdx]
                  have hsk := h2 k (by omega)
                  cases hgk : p.steps[k]? with
                  | none => rw [hgk] at hsk; exact Option.noConfusion hsk
                  | some st =>
                    rw [hgk] at hsk
                    simp only [Option.map_some'] at hsk ⊢
                    rw [if_neg (by omega : ¬ sidx ≤ k)]
                    exact hsk
                · intro k hklen hk
                  have hkk : sidx < k := hk
                  have hklen2 : k < (List.mapIdx (fun i s =>
                    if sidx ≤ i then resetPipelineStep s else s) p.steps).length := hklen
                  rw [List.length_mapIdx] at hklen2
                  show Option.map PipelineStep.status ((List.mapIdx (fun i s =>
                    if sidx ≤ i then resetPipelineStep s else s) p.steps)[k]?) =
                    some PipelineStepStatus.pending
                  rw [List.getElem?_mapIdx]
                  cases hgk : p.steps[k]? with
                  | none =>
                    rw [List.getElem?_eq_none_iff] at hgk
                    omega
                  | some st =>
                    simp only [Option.map_some']
                    rw [if_pos (by omega : sidx ≤ k)]
                    rfl
  | startPipeline ps' pipelineId nowStr h =>
    unfold start_pipeline_core at h
    cases hidx : ps.findIdx? (fun p => p.pipeline_id == pipelineId) with
    | none => rw [hidx] at h; exact Except.noConfusion h
    | some idx =>
      rw [hidx] at h
      dsimp only at h
      cases hp : ps[idx]? with
      | none => rw [hp] at h; exact Except.noConfusion h
      | some p =>
        rw [hp] at h
        dsimp only at h
        simp only [Except.ok.injEq] at h
        subst h
        intro q hq
        rcases List.mem_or_eq_of_mem_set hq with hq | hq
        · exact hinv q hq
        · subst hq
          exact hinv p (mem_of_getElem?_eq_some hp)
  | tickBumpPipeline pidx nowStr =>
    unfold bump_pipeline_retry_count
    cases hp : ps[pidx]? with
    | none => exact hinv
    | some p =>
      intro q hq
      rcases List.mem_or_eq_of_mem_set hq with hq | hq
      · exact hinv q hq
      · subst hq
        exact hinv p (mem_of_getElem?_eq_some hp)

/-- C7 counterexample: the invariant is not preserved by
`retry_pipeline_step` with `force = true`. The concrete pipeline
`forcedPipeline` (step 1 `Failed`, step 2 `Pending`, index 0) satisfies the
step-prefix invariant, yet a forced retry of its *second* step rewinds
`current_step_index` to 1 while step 1 is still `Failed`, violating the
all-predecessors-`Succeeded` half of the invariant. -/
theorem forced_retry_breaks_prefix_counterexample :
    PipelineInvP forcedPipeline ∧
    retry_pipeline_step_core [forcedPipeline] "pipe_2" "step_02_tpl" true "9" =
      Except.ok [{ forcedPipeline with
        steps := [failedStep, pendingStep]
        current_step_index := 1
        status := PipelineStatus.running
        updated_at := "9" }] ∧
    ¬ PipelineInvP { forcedPipeline with
        steps := [failedStep, pendingStep]
        current_step_index := 1
        status := PipelineStatus.running
        updated_at := "9" } := by
  refine ⟨?_, ?_, ?_⟩
  · exact ⟨by decide, by decide, by decide⟩
  · rfl
  · intro hinv
    obtain ⟨-, h2, -⟩ := hinv
    exact absurd (h2 0 (by decide)) (by decide)

/-- C7 (amended): pipeline step-prefix invariant. In every pipelines document
reachable from the empty store through create, reconcile (with any jobs
snapshot), cancel_pipeline, start_pipeline, the auto-retry counter bump, and
retry_pipeline_step **without force**, every pipeline has its
`current_step_index` in range, all steps before it `Succeeded`, and all steps
after it `Pending`. (A forced step retry may target a step past the current
index and break the prefix half — see the counterexample.) -/
theorem pipeline_step_prefix_invariant (ps : List PipelineRecord)
    (h : Relation.ReflTransGen PStep [] ps) : ∀ p ∈ ps, PipelineInvP p := by
  induction h with
  | refl => exact fun p hp => absurd hp (List.not_mem_nil p)
  | tail hsteps hstep ih => exact pstep_preserves_inv hstep ih

/-- Witness for `pipeline_step_prefix_invariant`: a concrete freshly created
single-step pipeline, reachable in one step, satisfies the invariant. -/
theorem pipeline_step_prefix_invariant_witness :
    PipelineInvP (create_pipeline_record "pipe_9" "P1" "n" "1"
      [("step_01_tpl", "tpl", Json.null)]) :=
  pipeline_step_prefix_invariant
    ([] ++ [create_pipeline_record "pipe_9" "P1" "n" "1" [("step_01_tpl", "tpl", Json.null)]])
    (Relation.ReflTransGen.single
      (PStep.create [] "pipe_9" "P1" "n" "1" [("step_01_tpl", "tpl", Json.null)]
        (by simp)))
    (create_pipeline_record "pipe_9" "P1" "n" "1" [("step_01_tpl", "tpl", Json.null)])
    (by simp)

lemma settledSummary_mono {env : ReconEnv} {snap : List JobRecord}
    {onlyId : Option String} {q p1 : PipelineRecord} {pool pool' : List JobRecord}
    (hsub : ∀ j ∈ pool, j ∈ pool')
    (hs : SettledSummary env snap onlyId q p1 pool) :
    SettledSummary env snap onlyId q p1 pool' := by
  rcases hs with hs | ⟨step, jid, h1, h2, h3, hdisp⟩
  · exact Or.inl hs
  · refine Or.inr ⟨step, jid, h1, h2, h3, ?_⟩
    rcases hdisp with hd | hd | hd | ⟨hn, jb, hjb, hjbid⟩
    · exact Or.inl hd
    · exact Or.inr (Or.inl hd)
    · exact Or.inr (Or.inr (Or.inl hd))
    · exact Or.inr (Or.inr (Or.inr ⟨hn, jb, hsub jb hjb, hjbid⟩))

lemma nonterminal_nonpending_running {s : PipelineStepStatus}
    (hterm : ¬(is_pipeline_step_terminal s = true))
    (hpend : ¬(s = PipelineStepStatus.pending)) :
    s = PipelineStepStatus.running := by
  cases s
  · exact absurd rfl hpend
  · rfl
  all_goals exact absurd rfl hterm

lemma stepTerminalToPipeline_ne_running (s : PipelineStepStatus) :
    stepTerminalToPipeline s ≠ PipelineStatus.running := by
  cases s <;> simp [stepTerminalToPipeline]

lemma reconLoop_settles (env : ReconEnv) (snap : List JobRecord)
    (onlyId : Option String) (fuel : Nat) :
    ∀ (p : PipelineRecord) (acc : List JobRecord) (ctr : Nat)
      (p' : PipelineRecord) (new' : List JobRecord) (ctr' : Nat),
      reconLoop env snap onlyId fuel p acc ctr = Except.ok (p', new', ctr') →
      (∃ suffix, new' = acc ++ suffix ∧
        ∀ j ∈ suffix, j.status = JobStatus.queued ∧ ∃ k, j.job_id = env.ids k) ∧
      SettledSummary env snap onlyId p p' new' := by
  induction fuel with
  | zero =>
    intro p acc ctr p' new' ctr' h
    exact Except.noConfusion h
  | succ fuel ih =>
    intro p acc ctr p' new' ctr' h
    simp only [reconLoop] at h
    by_cases hlen : p.steps.length ≤ p.current_step_index
    · rw [if_pos hlen] at h
      simp only [Except.ok.injEq, Prod.mk.injEq] at h
      obtain ⟨hp', hnew, -⟩ := h
      refine ⟨⟨[], by rw [← hnew]; simp, by simp⟩, Or.inl ?_⟩
      rw [← hp']
      simp
    · rw [if_neg hlen] at h
      cases hstep : p.steps[p.current_step_index]? with
      | none => rw [hstep] at h; exact Except.noConfusion h
      | some step =>
        rw [hstep] at h
        dsimp only at h
        by_cases hterm : is_pipeline_step_terminal step.status = true
        · rw [if_pos hterm] at h
          by_cases hsucc : step.status = PipelineStepStatus.succeeded
          · rw [if_pos hsucc] at h
            by_cases hlast : p.steps.length ≤ p.current_step_index + 1
            · rw [if_pos hlast] at h
              simp only [Except.ok.injEq, Prod.mk.injEq] at h
              obtain ⟨hp', hnew, -⟩ := h
              refine ⟨⟨[], by rw [← hnew]; simp, by simp⟩, Or.inl ?_⟩
              rw [← hp']
              simp
            · rw [if_neg hlast] at h
              obtain ⟨hsuffix, hsettled⟩ := ih _ _ _ _ _ _ h
              exact ⟨hsuffix, hsettled⟩
          · rw [if_neg hsucc] at h
            simp only [Except.ok.injEq, Prod.mk.injEq] at h
            obtain ⟨hp', hnew, -⟩ := h
            refine ⟨⟨[], by rw [← hnew]; simp, by simp⟩, Or.inl ?_⟩
            rw [← hp']
            exact stepTerminalToPipeline_ne_running step.status
        · rw [if_neg hterm] at h
          by_cases hpend : step.status = PipelineStepStatus.pending
          · rw [if_pos hpend] at h
            by_cases hok : env.enqueueOk step.template_id p.canonical_id step.params = true
            · rw [if_pos hok] at h
              simp only [Except.ok.injEq, Prod.mk.injEq] at h
              obtain ⟨hp', hnew, hctr⟩ := h
              refine ⟨⟨[freshJobRecord (env.ids ctr) step.template_id p.canonical_id
                  step.params env.nowStr], by rw [← hnew], ?_⟩, Or.inr ?_⟩
              · intro j hj
                simp only [List.mem_singleton] at hj
                subst hj
                exact ⟨rfl, ctr, rfl⟩
              · refine ⟨{ step with
                    job_id := some (env.ids ctr)
                    status := PipelineStepStatus.running
                    started_at := if step.started_at.isNone then some env.nowStr
                      else step.started_at
                    finished_at := none }, env.ids ctr, ?_, rfl, rfl, ?_⟩
                · rw [← hp']
                  exact List.getElem?_set_self (Nat.lt_of_not_le hlen)
                · refine Or.inr (Or.inr (Or.inr ⟨⟨ctr, rfl⟩, ?_⟩))
                  refine ⟨freshJobRecord (env.ids ctr) step.template_id p.canonical_id
                    step.params env.nowStr, ?_, rfl⟩
                  rw [← hnew]
                  exact List.mem_append_right acc (List.mem_singleton.mpr rfl)
            · rw [if_neg hok] at h
              exact Except.noConfusion h
          · rw [if_neg hpend] at h
            have hrunning : step.status = PipelineStepStatus.running :=
              nonterminal_nonpending_running hterm hpend
            cases hjid : step.job_id with
            | none =>
              rw [hjid] at h
              obtain ⟨hsuffix, hsettled⟩ := ih _ _ _ _ _ _ h
              refine ⟨hsuffix, ?_⟩
              rcases hsettled with hs | ⟨stepX, jid, hx1, hx2, hx3, hdisp⟩
              · exact Or.inl hs
              · refine Or.inr ⟨stepX, jid, hx1, hx2, hx3, ?_⟩
                rcases hdisp with hd | ⟨⟨st0, hst0, hbind⟩, hfind⟩ | hd | hd
                · exact Or.inl hd
                · refine Or.inr (Or.inl ⟨?_, hfind⟩)
                  rcases List.mem_or_eq_of_mem_set hst0 with hst0 | hst0
                  · exact ⟨st0, hst0, hbind⟩
                  · subst hst0
                    exact Option.noConfusion hbind
                · exact Or.inr (Or.inr (Or.inl hd))
                · exact Or.inr (Or.inr (Or.inr hd))
            | some stepJobId =>
              rw [hjid] at h
              dsimp only at h
              by_cases hmatch : onlyIdMismatch onlyId stepJobId = true
              · rw [if_pos hmatch] at h
                simp only [Except.ok.injEq, Prod.mk.injEq] at h
                obtain ⟨hp', hnew, -⟩ := h
                refine ⟨⟨[], by rw [← hnew]; simp, by simp⟩, Or.inr ?_⟩
                refine ⟨step, stepJobId, by rw [← hp']; exact hstep, hrunning, hjid, ?_⟩
                exact Or.inl hmatch
              · rw [if_neg hmatch] at h
                cases hfind : snap.find? (fun j => j.job_id == stepJobId) with
                | none =>
                  rw [hfind] at h
                  dsimp only at h
                  simp only [Except.ok.injEq, Prod.mk.injEq] at h
                  obtain ⟨hp', hnew, -⟩ := h
                  refine ⟨⟨[], by rw [← hnew]; simp, by simp⟩, Or.inr ?_⟩
                  refine ⟨step, stepJobId, by rw [← hp']; exact hstep, hrunning, hjid, ?_⟩
                  refine Or.inr (Or.inl ⟨⟨step, mem_of_getElem?_eq_some hstep, hjid⟩, hfind⟩)
                | some job =>
                  rw [hfind] at h
                  dsimp only at h
                  by_cases hmap : pipeline_step_status_from_job job =
                      PipelineStepStatus.running
                  · rw [if_pos hmap] at h
                    simp only [Except.ok.injEq, Prod.mk.injEq] at h
                    obtain ⟨hp', hnew, -⟩ := h
                    refine ⟨⟨[], by rw [← hnew]; simp, by simp⟩, Or.inr ?_⟩
                    refine ⟨step, stepJobId, by rw [← hp']; exact hstep, hrunning, hjid, ?_⟩
                    exact Or.inr (Or.inr (Or.inl ⟨job, hfind, hmap⟩))
                  · rw [if_neg hmap] at h
                    obtain ⟨hsuffix, hsettled⟩ := ih _ _ _ _ _ _ h
                    refine ⟨hsuffix, ?_⟩
                    rcases hsettled with hs | ⟨stepX, jid, hx1, hx2, hx3, hdisp⟩
                    · exact Or.inl hs
                    · refine Or.inr ⟨stepX, jid, hx1, hx2, hx3, ?_⟩
                      rcases hdisp with hd | ⟨⟨st0, hst0, hbind⟩, hfind2⟩ | hd | hd
                      · exact Or.inl hd
                      · refine Or.inr (Or.inl ⟨?_, hfind2⟩)
                        rcases List.mem_or_eq_of_mem_set hst0 with hst0 | hst0
                        · exact ⟨st0, hst0, hbind⟩
                        · subst hst0
                          exact ⟨step, mem_of_getElem?_eq_some hstep, by
                            rw [hjid]; exact hbind⟩
                      · exact Or.inr (Or.inr (Or.inl hd))
                      · exact Or.inr (Or.inr (Or.inr hd))

lemma reconcileOnePipeline_settles {env : ReconEnv} {snap : List JobRecord}
    {onlyId : Option String} {p : PipelineRecord} {acc : List JobRecord} {ctr : Nat}
    {p' : PipelineRecord} {new' : List JobRecord} {ctr' : Nat}
    (h : reconcileOnePipeline env snap onlyId p acc ctr = Except.ok (p', new', ctr')) :
    (∃ suffix, new' = acc ++ suffix ∧
      ∀ j ∈ suffix, j.status = JobStatus.queued ∧ ∃ k, j.job_id = env.ids k) ∧
    SettledSummary env snap onlyId p p' new' := by
  unfold reconcileOnePipeline at h
  by_cases hempty : p.steps.isEmpty = true
  · rw [if_pos hempty] at h
    by_cases hst : p.status ≠ PipelineStatus.succeeded
    · rw [if_pos hst] at h
      simp only [Except.ok.injEq, Prod.mk.injEq] at h
      obtain ⟨hp', hnew, -⟩ := h
      refine ⟨⟨[], by rw [← hnew]; simp, by simp⟩, Or.inl ?_⟩
      rw [← hp']
      simp
    · rw [if_neg hst] at h
      simp only [Except.ok.injEq, Prod.mk.injEq] at h
      obtain ⟨hp', hnew, -⟩ := h
      refine ⟨⟨[], by rw [← hnew]; simp, by simp⟩, Or.inl ?_⟩
      rw [← hp']
      rw [not_not] at hst
      rw [hst]
      exact fun hc => PipelineStatus.noConfusion hc
  · rw [if_neg hempty] at h
    by_cases hrun : p.status ≠ PipelineStatus.running
    · rw [if_pos hrun] at h
      simp only [Except.ok.injEq, Prod.mk.injEq] at h
      obtain ⟨hp', hnew, -⟩ := h
      refine ⟨⟨[], by rw [← hnew]; simp, by simp⟩, Or.inl ?_⟩
      rw [← hp']
      exact hrun
    · rw [if_neg hrun] at h
      dsimp only at h
      by_cases hclamp : p.steps.length ≤ p.current_step_index
      · rw [if_pos hclamp] at h
        obtain ⟨hsfx, hsum⟩ := reconLoop_settles env snap onlyId _ _ _ _ _ _ _ h
        exact ⟨hsfx, hsum⟩
      · rw [if_neg hclamp] at h
        exact reconLoop_settles env snap onlyId _ _ _ _ _ _ _ h

lemma reconcileAll_settles (env : ReconEnv) (snap : List JobRecord)
    (onlyId : Option String) :
    ∀ (ps : List PipelineRecord) (ctr : Nat) (ps1 : List PipelineRecord)
      (new1 : List JobRecord) (ctr1 : Nat),
      reconcileAll env snap onlyId ps ctr = Except.ok (ps1, new1, ctr1) →
      (∀ j ∈ new1, j.status = JobStatus.queued ∧ ∃ k, j.job_id = env.ids k) ∧
      (∀ p1 ∈ ps1, ∃ q ∈ ps, SettledSummary env snap onlyId q p1 new1) := by
  intro ps
  induction ps with
  | nil =>
    intro ctr ps1 new1 ctr1 h
    simp only [reconcileAll, Except.ok.injEq, Prod.mk.injEq] at h
    obtain ⟨hps1, hnew1, -⟩ := h
    constructor
    · intro j hj
      rw [← hnew1] at hj
      exact absurd hj (List.not_mem_nil j)
    · intro p1 hp1
      rw [← hps1] at hp1
      exact absurd hp1 (List.not_mem_nil p1)
  | cons p rest ih =>
    intro ctr ps1 new1 ctr1 h
    simp only [reconcileAll] at h
    cases hone : reconcileOnePipeline env snap onlyId p [] ctr with
    | error e => rw [hone] at h; exact Except.noConfusion h
    | ok res =>
      rw [hone] at h
      obtain ⟨p1, new0, ctr0⟩ := res
      dsimp only at h
      cases hrest : reconcileAll env snap onlyId rest ctr0 with
      | error e => rw [hrest] at h; exact Except.noConfusion h
      | ok res2 =>
        rw [hrest] at h
        obtain ⟨rest1, new2, ctr2⟩ := res2
        dsimp only at h
        simp only [Except.ok.injEq, Prod.mk.injEq] at h
        obtain ⟨hps1, hnew1, -⟩ := h
        obtain ⟨⟨suffix, hsuf, hsufok⟩, hsettled⟩ := reconcileOnePipeline_settles hone
        have hnew0 : new0 = suffix := by simpa using hsuf
        obtain ⟨ihfresh, ihsettled⟩ := ih ctr0 rest1 new2 ctr2 hrest
        constructor
        · intro j hj
          rw [← hnew1] at hj
          rcases List.mem_append.mp hj with hj | hj
          · exact hsufok j (hnew0 ▸ hj)
          · exact ihfresh j hj
        · intro q1 hq1
          rw [← hps1] at hq1
          rcases List.mem_cons.mp hq1 with hq1 | hq1
          · subst hq1
            refine ⟨p, List.mem_cons_self p rest, ?_⟩
            refine settledSummary_mono ?_ hsettled
            intro j hj
            rw [← hnew1]
            exact List.mem_append_left new2 hj
          · obtain ⟨q, hq, hqs⟩ := ihsettled q1 hq1
            refine ⟨q, List.mem_cons_of_mem p hq, ?_⟩
            refine settledSummary_mono ?_ hqs
            intro j hj
            rw [← hnew1]
            exact List.mem_append_right new0 hj

lemma queued_maps_to_running {j : JobRecord} (hq : j.status = JobStatus.queued) :
    pipeline_step_status_from_job j = PipelineStepStatus.running := by
  unfold pipeline_step_status_from_job
  rw [hq]

lemma settled_second_pass_no_enqueue
    (env env2 : ReconEnv) (jobs new1 : List JobRecord) (onlyId : Option String)
    (q p1 : PipelineRecord) (acc : List JobRecord) (ctr : Nat)
    (p2 : PipelineRecord) (new0 : List JobRecord) (ctr2 : Nat)
    (hnew1 : ∀ j ∈ new1, j.status = JobStatus.queued ∧ ∃ k, j.job_id = env.ids k)
    (hjfresh : ∀ (n : Nat) (j : JobRecord), j ∈ jobs → j.job_id ≠ env.ids n)
    (hqfresh : ∀ (n : Nat) (st : PipelineStep) (jid : String), st ∈ q.steps →
      st.job_id = some jid → jid ≠ env.ids n)
    (hs : SettledSummary env jobs onlyId q p1 new1)
    (h : reconcileOnePipeline env2 (jobs ++ new1) onlyId p1 acc ctr =
      Except.ok (p2, new0, ctr2)) :
    new0 = acc := by
  unfold reconcileOnePipeline at h
  by_cases hempty : p1.steps.isEmpty = true
  · rw [if_pos hempty] at h
    by_cases hst : p1.status ≠ PipelineStatus.succeeded
    · rw [if_pos hst] at h
      simp only [Except.ok.injEq, Prod.mk.injEq] at h
      exact h.2.1.symm
    · rw [if_neg hst] at h
      simp only [Except.ok.injEq, Prod.mk.injEq] at h
      exact h.2.1.symm
  · rw [if_neg hempty] at h
    by_cases hrun : p1.status ≠ PipelineStatus.running
    · rw [if_pos hrun] at h
      simp only [Except.ok.injEq, Prod.mk.injEq] at h
      exact h.2.1.symm
    · rw [if_neg hrun] at h
      dsimp only at h
      rw [not_not] at hrun
      rcases hs with hs | ⟨step, jid, hstep, hsrun, hsbind, hdisp⟩
      · exact absurd hrun hs
      · have hidx : p1.current_step_index < p1.steps.length := by
          by_contra hge
          rw [List.getElem?_eq_none (Nat.le_of_not_lt hge)] at hstep
          exact Option.noConfusion hstep
        rw [if_neg (Nat.not_le_of_lt hidx)] at h
        rw [show 2 * p1.steps.length + 2 = (2 * p1.steps.length + 1) + 1 from rfl] at h
        simp only [reconLoop] at h
        rw [if_neg (Nat.not_le_of_lt hidx), hstep] at h
        dsimp only at h
        rw [if_neg (show ¬(is_pipeline_step_terminal step.status = true) by
          rw [hsrun]; exact fun hc => Bool.noConfusion hc)] at h
        rw [if_neg (show ¬(step.status = PipelineStepStatus.pending) by
          rw [hsrun]; exact fun hc => PipelineStepStatus.noConfusion hc)] at h
        rw [hsbind] at h
        dsimp only at h
        by_cases hmm : onlyIdMismatch onlyId jid = true
        · rw [if_pos hmm] at h
          simp only [Except.ok.injEq, Prod.mk.injEq] at h
          exact h.2.1.symm
        · rw [if_neg hmm] at h
          rcases hdisp with hd | ⟨⟨st0, hst0, hbind⟩, hfindnone⟩ |
              ⟨job, hfind, hmap⟩ | ⟨⟨n, hjid⟩, jb, hjb, hjbid⟩
          · exact absurd hd hmm
          · have hfindbig : (jobs ++ new1).find? (fun j => j.job_id == jid) = none := by
              rw [List.find?_append, hfindnone]
              simp only [Option.none_or]
              rw [List.find?_eq_none]
              intro jb hjb
              obtain ⟨-, k, hk⟩ := hnew1 jb hjb
              simp only [beq_iff_eq]
              rw [hk]
              exact fun hc => (hqfresh k st0 jid hst0 hbind) hc.symm
            rw [hfindbig] at h
            dsimp only at h
            simp only [Except.ok.injEq, Prod.mk.injEq] at h
            exact h.2.1.symm
          · have hfindbig : (jobs ++ new1).find? (fun j => j.job_id == jid) = some job := by
              rw [List.find?_append, hfind]
              rfl
            rw [hfindbig] at h
            dsimp only at h
            rw [if_pos hmap] at h
            simp only [Except.ok.injEq, Prod.mk.injEq] at h
            exact h.2.1.symm
          · have hfindjobs : jobs.find? (fun j => j.job_id == jid) = none := by
              rw [List.find?_eq_none]
              intro jx hjx
              simp only [beq_iff_eq]
              rw [hjid]
              exact hjfresh n jx hjx
            have hsome : ((new1.find? (fun j => j.job_id == jid)).isSome) = true := by
              rw [List.find?_isSome]
              exact ⟨jb, hjb, by simp [hjbid]⟩
            obtain ⟨jb2, hjb2⟩ := Option.isSome_iff_exists.mp hsome
            have hfindbig : (jobs ++ new1).find? (fun j => j.job_id == jid) = some jb2 := by
              rw [List.find?_append, hfindjobs, hjb2]
              rfl
            rw [hfindbig] at h
            dsimp only at h
            rw [if_pos (queued_maps_to_running
              (hnew1 jb2 (List.mem_of_find?_eq_some hjb2)).1)] at h
            simp only [Except.ok.injEq, Prod.mk.injEq] at h
            exact h.2.1.symm

lemma reconcileAll_no_enqueue
    (env env2 : ReconEnv) (jobs new1 : List JobRecord) (onlyId : Option String)
    (pipelines : List PipelineRecord)
    (hnew1 : ∀ j ∈ new1, j.status = JobStatus.queued ∧ ∃ k, j.job_id = env.ids k)
    (hjfresh : ∀ (n : Nat) (j : JobRecord), j ∈ jobs → j.job_id ≠ env.ids n)
    (hpfresh : ∀ q ∈ pipelines, ∀ (n : Nat) (st : PipelineStep) (jid : String),
      st ∈ q.steps → st.job_id = some jid → jid ≠ env.ids n) :
    ∀ (ps1 : List PipelineRecord) (ctr : Nat) (ps2 : List PipelineRecord)
      (new2 : List JobRecord) (ctr2 : Nat),
      (∀ p1 ∈ ps1, ∃ q ∈ pipelines, SettledSummary env jobs onlyId q p1 new1) →
      reconcileAll env2 (jobs ++ new1) onlyId ps1 ctr = Except.ok (ps2, new2, ctr2) →
      new2 = [] := by
  intro ps1
  induction ps1 with
  | nil =>
    intro ctr ps2 new2 ctr2 _ h
    simp only [reconcileAll, Except.ok.injEq, Prod.mk.injEq] at h
    exact h.2.1.symm
  | cons p1 rest ih =>
    intro ctr ps2 new2 ctr2 hsettle h
    simp only [reconcileAll] at h
    cases hone : reconcileOnePipeline env2 (jobs ++ new1) onlyId p1 [] ctr with
    | error e => rw [hone] at h; exact Except.noConfusion h
    | ok res =>
      rw [hone] at h
      obtain ⟨p2, new0, ctr0⟩ := res
      dsimp only at h
      cases hrest : reconcileAll env2 (jobs ++ new1) onlyId rest ctr0 with
      | error e => rw [hrest] at h; exact Except.noConfusion h
      | ok res2 =>
        rw [hrest] at h
        obtain ⟨rest2, newR, ctrR⟩ := res2
        dsimp only at h
        simp only [Except.ok.injEq, Prod.mk.injEq] at h
        obtain ⟨-, hnew2, -⟩ := h
        obtain ⟨q, hq, hs⟩ := hsettle p1 (List.mem_cons_self p1 rest)
        have hnew0 : new0 = [] :=
          settled_second_pass_no_enqueue env env2 jobs new1 onlyId q p1 [] ctr
            p2 new0 ctr0 hnew1 hjfresh (hpfresh q hq) hs hone
        have hnewR : newR = [] :=
          ih ctr0 rest2 newR ctrR
            (fun r hr => hsettle r (List.mem_cons_of_mem p1 hr)) hrest
        rw [← hnew2, hnew0, hnewR]
        rfl

/-- C6: Reconciliation enqueues at most once per pending step. If one
reconciliation pass over a pipeline list succeeds, producing updated
pipelines `ps1` and freshly enqueued jobs `new1`, and the generated job ids
are fresh (no existing job and no pre-existing step binding uses an id from
the generator stream), then a second pass run on the updated pipelines with
the enqueued jobs now present in the jobs snapshot enqueues nothing: every
step that received a job is left Running and bound, so the second pass never
reaches the enqueue branch for it. -/
theorem reconcile_enqueue_idempotent
    (env env2 : ReconEnv) (jobs : List JobRecord) (onlyId : Option String)
    (pipelines ps1 ps2 : List PipelineRecord) (new1 new2 : List JobRecord)
    (ctr ctr1 ctrB ctr2 : Nat)
    (hjfresh : ∀ (n : Nat) (j : JobRecord), j ∈ jobs → j.job_id ≠ env.ids n)
    (hpfresh : ∀ q ∈ pipelines, ∀ (n : Nat) (st : PipelineStep) (jid : String),
      st ∈ q.steps → st.job_id = some jid → jid ≠ env.ids n)
    (h1 : reconcileAll env jobs onlyId pipelines ctr = Except.ok (ps1, new1, ctr1))
    (h2 : reconcileAll env2 (jobs ++ new1) onlyId ps1 ctrB =
      Except.ok (ps2, new2, ctr2)) :
    new2 = [] := by
  obtain ⟨hnew1, hsettled⟩ :=
    reconcileAll_settles env jobs onlyId pipelines ctr ps1 new1 ctr1 h1
  exact reconcileAll_no_enqueue env env2 jobs new1 onlyId pipelines hnew1 hjfresh
    hpfresh ps1 ctrB ps2 new2 ctr2 hsettled h2

/-- Witness for C6: a one-step pipeline whose first pass enqueues exactly one
job and whose second pass, with that job visible, enqueues nothing. -/
theorem reconcile_enqueue_idempotent_witness :
    (reconcileAll trivialEnv [] none [idemPipeline0] 0 =
      Except.ok ([idemPipeline1], [idemJob], 1)) ∧
    (∀ ps2 new2 ctr2,
      reconcileAll trivialEnv ([] ++ [idemJob]) none [idemPipeline1] 0 =
        Except.ok (ps2, new2, ctr2) → new2 = []) := by
  refine ⟨by rfl, ?_⟩
  intro ps2 new2 ctr2 h2
  exact reconcile_enqueue_idempotent trivialEnv trivialEnv [] none
    [idemPipeline0] [idemPipeline1] ps2 [idemJob] new2 0 1 0 ctr2
    (fun n j hj => absurd hj (List.not_mem_nil j))
    (fun q hq n st jid hst hbind => by
      have hq0 : q = idemPipeline0 := by
        rcases List.mem_cons.mp hq with h | h
        · exact h
        · exact absurd h (List.not_mem_nil q)
      subst hq0
      have hnone : st.job_id = none := by
        have : st ∈ idemPipeline0.steps := hst
        simp only [idemPipeline0, create_pipeline_record, List.map] at this
        rcases List.mem_cons.mp this with h | h
        · rw [h]
        · exact absurd h (List.not_mem_nil st)
      rw [hnone] at hbind
      exact Option.noConfusion hbind)
    (by rfl) h2

/-- C2 (code bug): the auto-retry pipeline budget does NOT fully gate
dispatch. On the failing input — a `NeedsRetry` job `j1` whose `retry_at`
has elapsed and whose per-job budget is available, bound to a pipeline step
of a pipeline whose `auto_retry_attempt_count` (3) has reached
`auto_retry_max_per_pipeline` (3) — the tick still selects the job, with no
pipeline reference, so it is dispatched standalone via `retry_job`
(main.rs:5692). The claim says such a job is not dispatched at all that
tick; in the code the guard at main.rs:5653-5657 is dead because the
reference is only recorded when the budget is available (main.rs:5645-5647),
so the exhausted-pipeline job falls through as a plain candidate. -/
theorem tick_dispatches_exhausted_pipeline_job :
    tickSelect 5 c2Settings [c2Job] [c2Pipeline] = some (0, "j1", none) ∧
    (c2Pipeline.steps.find? (fun s => s.job_id == some c2Job.job_id) = some c2Step) ∧
    c2Settings.auto_retry_max_per_pipeline ≤ c2Pipeline.auto_retry_attempt_count ∧
    c2Job.status = JobStatus.needsRetry ∧
    parse_retry_at_ms c2Job.retry_at = some 0 ∧
    c2Job.auto_retry_attempt_count < c2Settings.auto_retry_max_per_job := by
  refine ⟨by rfl, by rfl, by decide, by rfl, by rfl, by decide⟩

end Jarvis
